import Mathlib

/-!
Verification of the qm-management-v2 generation pipeline core.

Shallow embedding of the Python sources under backend/: python strings are
modelled as explicit character lists, bytes as lists of naturals below 256,
dictionaries as association lists or lookup functions, and the external
collaborators (database rows, storage, AI completion and embedding calls) as
explicit oracle parameters.  Every definition mirrors the corresponding
source function; theorems settle the frozen claims about the spec.

Functions whose Python originals loop over a shrinking string are written
with an explicit step budget (the length of the string, since every
iteration consumes at least one character) so that they are structurally
recursive and evaluate by kernel reduction.
-/

namespace QM

/-- Python strings are modelled as explicit lists of characters. -/
abbrev Str : Type := List Char

/-- The whitespace characters recognised by Python str.strip with no
argument (ASCII whitespace; the sources only strip ASCII text). -/
def isPySpace (c : Char) : Bool :=
  c = ' ' || c = '\t' || c = '\n' || c = '\r' || c = '\x0b' || c = '\x0c'

/-- Python str.strip(): drop leading and trailing whitespace. -/
def pyStrip (s : Str) : Str :=
  ((s.dropWhile isPySpace).reverse.dropWhile isPySpace).reverse

/-- Python str.lower() on the ASCII range (token names match [A-Z0-9_]). -/
def pyLower (s : Str) : Str := s.map Char.toLower

/-- Lexicographic comparison of strings by code point, as Python compares
str values in sorted(...). -/
def strLe : Str → Str → Bool
  | [], _ => true
  | _ :: _, [] => false
  | c :: cs, d :: ds => if c = d then strLe cs ds else decide (c < d)

/-- Insert into a list sorted by le, in front of the first element not
strictly before it (a stable insertion). -/
def insertBy (le : α → α → Bool) (a : α) : List α → List α
  | [] => [a]
  | b :: l => if le a b then a :: b :: l else b :: insertBy le a l

/-- Stable insertion sort; Python sorted(...) for the orders used here
(all of which are total on the elements being sorted). -/
def sortBy (le : α → α → Bool) (l : List α) : List α :=
  l.foldr (insertBy le) []

/-- Python sorted(...) over a set of strings: distinct values in ascending
lexicographic order. -/
def sortedStrSet (l : List Str) : List Str := sortBy strLe l.dedup

/-! ## backend/common/placeholders.py

PLACEHOLDER_PATTERN is the regex \x7b\x7b([A-Z0-9_]+)\x7d\x7d; re.finditer
and re.sub scan left to right, attempting a match at each position and
continuing after the end of every non-overlapping match. -/

/-- The character class [A-Z0-9_] of PLACEHOLDER_PATTERN. -/
def isTokenChar (c : Char) : Bool :=
  ('A' ≤ c && c ≤ 'Z') || ('0' ≤ c && c ≤ '9') || c = '_'

/-- Attempt to match PLACEHOLDER_PATTERN at the head of the string: two
opening braces, a non-empty maximal run of token characters, two closing
braces.  Returns the captured token and the remainder after the match. -/
def matchPlaceholder : Str → Option (Str × Str)
  | '{' :: '{' :: rest =>
    match rest.dropWhile isTokenChar with
    | '}' :: '}' :: tail =>
      if (rest.takeWhile isTokenChar).isEmpty then none
      else some (rest.takeWhile isTokenChar, tail)
    | _ => none
  | _ => none

/-- The text matched by PLACEHOLDER_PATTERN for a token: match.group(0). -/
def placeholderLiteral (tok : Str) : Str :=
  '{' :: '{' :: (tok ++ ['}', '}'])

theorem matchPlaceholder_some {s tok tail : Str}
    (h : matchPlaceholder s = some (tok, tail)) :
    s = placeholderLiteral tok ++ tail ∧ tok ≠ [] := by
  unfold matchPlaceholder at h
  split at h
  next rest =>
    split at h
    next tail2 heq2 =>
      split at h
      next => exact absurd h (by simp)
      next hrun =>
        injection h with h'
        injection h' with h1 h2
        subst h1; subst h2
        refine ⟨?_, ?_⟩
        · have hsplit := List.takeWhile_append_dropWhile (p := isTokenChar) (l := rest)
          rw [placeholderLiteral]
          simp only [List.cons_append, List.append_assoc, List.nil_append]
          rw [← heq2, hsplit]
        · intro hnil
          rw [hnil] at hrun
          simp at hrun
    next => exact absurd h (by simp)
  next => exact absurd h (by simp)

theorem matchPlaceholder_length {s tok tail : Str}
    (h : matchPlaceholder s = some (tok, tail)) : tail.length + 5 ≤ s.length := by
  obtain ⟨hs, hne⟩ := matchPlaceholder_some h
  subst hs
  rcases tok with _ | ⟨a, t⟩
  · exact absurd rfl hne
  · simp only [placeholderLiteral, List.cons_append, List.length_cons,
      List.length_append]
    omega

/-- The scanning pass of extract_placeholder_tokens, with a step budget. -/
def scanExtract : Nat → Str → List Str
  | 0, _ => []
  | _, [] => []
  | fuel + 1, c :: cs =>
    match matchPlaceholder (c :: cs) with
    | some (tok, tail) => tok :: scanExtract fuel tail
    | none => scanExtract fuel cs

/-- extract_placeholder_tokens: all pattern matches in source order,
duplicates preserved. -/
def extract_placeholder_tokens (s : Str) : List Str := scanExtract s.length s

/-- count_placeholder_tokens: occurrence count of a token among the
extracted matches (collections.Counter as a counting function). -/
def count_placeholder_tokens (text : Str) (tok : Str) : Nat :=
  (extract_placeholder_tokens text).count tok

/-- True when values.get(token) is missing or blank after trimming: the
condition under which re.sub keeps the original literal. -/
def isBlankValue (values : Str → Option Str) (tok : Str) : Bool :=
  match values tok with
  | none => true
  | some v => pyStrip v = ([] : Str)

/-- The scanning pass of replace_placeholders, with a step budget: rebuild
the text match by match, substituting a present non-blank value and
otherwise keeping the literal and accumulating the token as unresolved (in
match order, with repeats; the caller deduplicates and sorts). -/
def scanSub (values : Str → Option Str) : Nat → Str → Str × List Str
  | 0, _ => ([], [])
  | _, [] => ([], [])
  | fuel + 1, c :: cs =>
    match matchPlaceholder (c :: cs) with
    | some (tok, tail) =>
      let rest := scanSub values fuel tail
      if isBlankValue values tok then
        (placeholderLiteral tok ++ rest.1, tok :: rest.2)
      else
        ((values tok).getD [] ++ rest.1, rest.2)
    | none =>
      let rest := scanSub values fuel cs
      (c :: rest.1, rest.2)

/-- replace_placeholders: substituted text plus sorted(unresolved). -/
def replace_placeholders (text : Str) (values : Str → Option Str) :
    Str × List Str :=
  let out := scanSub values text.length text
  (out.1, sortedStrSet out.2)

/-! Specification-side decomposition of a text into literal characters and
placeholder matches, used to state what the scanning passes do. -/

/-- A segment of a text: one character outside any match, or one match
carrying its token. -/
inductive Seg : Type
  | lit (c : Char)
  | ph (tok : Str)
deriving DecidableEq

/-- Decompose a text into segments by the scanning discipline of
re.finditer: leftmost match first, continuing after each match. -/
def scanSegs : Nat → Str → List Seg
  | 0, _ => []
  | _, [] => []
  | fuel + 1, c :: cs =>
    match matchPlaceholder (c :: cs) with
    | some (tok, tail) => Seg.ph tok :: scanSegs fuel tail
    | none => Seg.lit c :: scanSegs fuel cs

/-- The segment decomposition of a whole text. -/
def segmentsOf (s : Str) : List Seg := scanSegs s.length s

/-- The source text of a segment. -/
def segText : Seg → Str
  | .lit c => [c]
  | .ph tok => placeholderLiteral tok

/-- The rendering of a segment under a value map: a match with a present
non-blank value becomes the value, any other segment stays as its source
text. -/
def renderSeg (values : Str → Option Str) : Seg → Str
  | .lit c => [c]
  | .ph tok => if isBlankValue values tok then placeholderLiteral tok
               else (values tok).getD []

/-- The token of a placeholder segment. -/
def segToken : Seg → Option Str
  | .lit _ => none
  | .ph tok => some tok

theorem scanSegs_flatten :
    ∀ (fuel : Nat) (s : Str), s.length ≤ fuel →
      ((scanSegs fuel s).map segText).flatten = s := by
  intro fuel
  induction fuel with
  | zero =>
    intro s hs
    have : s = [] := List.eq_nil_of_length_eq_zero (Nat.le_zero.mp hs)
    subst this
    simp [scanSegs]
  | succ n ih =>
    intro s hs
    cases s with
    | nil => simp [scanSegs]
    | cons c cs =>
      rw [scanSegs]
      cases h : matchPlaceholder (c :: cs) with
      | some pr =>
        obtain ⟨tok, tail⟩ := pr
        obtain ⟨hshape, -⟩ := matchPlaceholder_some h
        have hlen := matchPlaceholder_length h
        simp only [List.map_cons, List.flatten_cons, segText]
        rw [ih tail (by simp only [List.length_cons] at hs hlen ⊢; omega), ← hshape]
      | none =>
        simp only [List.map_cons, List.flatten_cons, segText]
        rw [ih cs (by simp only [List.length_cons] at hs; omega)]
        rfl

theorem scanSub_fst (values : Str → Option Str) :
    ∀ (fuel : Nat) (s : Str),
      (scanSub values fuel s).1 =
        ((scanSegs fuel s).map (renderSeg values)).flatten := by
  intro fuel
  induction fuel with
  | zero => intro s; simp [scanSub, scanSegs]
  | succ n ih =>
    intro s
    cases s with
    | nil => simp [scanSub, scanSegs]
    | cons c cs =>
      rw [scanSub, scanSegs]
      cases h : matchPlaceholder (c :: cs) with
      | some pr =>
        obtain ⟨tok, tail⟩ := pr
        by_cases hb : isBlankValue values tok
        · simp [hb, renderSeg, ih]
        · simp [hb, renderSeg, ih]
      | none => simp [renderSeg, ih]

theorem scanSub_snd (values : Str → Option Str) :
    ∀ (fuel : Nat) (s : Str),
      (scanSub values fuel s).2 =
        (scanSegs fuel s).filterMap
          (fun seg => (segToken seg).filter (fun t => isBlankValue values t)) := by
  intro fuel
  induction fuel with
  | zero => intro s; simp [scanSub, scanSegs]
  | succ n ih =>
    intro s
    cases s with
    | nil => simp [scanSub, scanSegs]
    | cons c cs =>
      rw [scanSub, scanSegs]
      cases h : matchPlaceholder (c :: cs) with
      | some pr =>
        obtain ⟨tok, tail⟩ := pr
        by_cases hb : isBlankValue values tok
        · simp [hb, segToken, Option.filter, ih]
        · simp [hb, segToken, Option.filter, ih]
      | none => simp [segToken, ih]

theorem scanExtract_eq :
    ∀ (fuel : Nat) (s : Str),
      scanExtract fuel s = (scanSegs fuel s).filterMap segToken := by
  intro fuel
  induction fuel with
  | zero => intro s; simp [scanExtract, scanSegs]
  | succ n ih =>
    intro s
    cases s with
    | nil => simp [scanExtract, scanSegs]
    | cons c cs =>
      rw [scanExtract, scanSegs]
      cases h : matchPlaceholder (c :: cs) with
      | some pr =>
        obtain ⟨tok, tail⟩ := pr
        simp [segToken, ih]
      | none => simp [segToken, ih]

theorem segmentsOf_flatten (s : Str) :
    ((segmentsOf s).map segText).flatten = s :=
  scanSegs_flatten s.length s le_rfl

theorem extract_eq_segments (s : Str) :
    extract_placeholder_tokens s = (segmentsOf s).filterMap segToken :=
  scanExtract_eq s.length s

theorem mem_insertBy {le : α → α → Bool} {a x : α} {l : List α} :
    x ∈ insertBy le a l ↔ x = a ∨ x ∈ l := by
  induction l with
  | nil => simp [insertBy]
  | cons b t ih =>
    by_cases h : le a b
    · simp [insertBy, h]
    · simp only [insertBy, h, if_neg]
      simp [ih]
      tauto

theorem mem_sortBy {le : α → α → Bool} {x : α} {l : List α} :
    x ∈ sortBy le l ↔ x ∈ l := by
  induction l with
  | nil => simp [sortBy]
  | cons b t ih =>
    simp only [sortBy, List.foldr] at ih ⊢
    rw [mem_insertBy, ih]
    simp

theorem mem_sortedStrSet {x : Str} {l : List Str} :
    x ∈ sortedStrSet l ↔ x ∈ l := by
  rw [sortedStrSet, mem_sortBy, List.mem_dedup]

/-- C5: replace_placeholders replaces each match of the placeholder pattern
whose mapped value exists and is non-blank after trimming with that value;
every other match is left as the original literal in the output and its
token is recorded in the unresolved set; text outside matches is returned
unchanged (the rendered output is the concatenation of the segments of the
text, literal characters kept as-is, and the segments concatenate back to
the original text). -/
theorem C5_replace_placeholders_spec (text : Str) (values : Str → Option Str) :
    (replace_placeholders text values).1 =
        ((segmentsOf text).map (renderSeg values)).flatten
    ∧ (∀ t : Str, t ∈ (replace_placeholders text values).2 ↔
        (Seg.ph t ∈ segmentsOf text ∧ isBlankValue values t))
    ∧ ((segmentsOf text).map segText).flatten = text := by
  refine ⟨scanSub_fst values text.length text, ?_, segmentsOf_flatten text⟩
  intro t
  show t ∈ sortedStrSet (scanSub values text.length text).2 ↔ _
  rw [mem_sortedStrSet, scanSub_snd, List.mem_filterMap]
  constructor
  · rintro ⟨seg, hseg, hf⟩
    cases seg with
    | lit c => simp [segToken, Option.filter] at hf
    | ph tk =>
      simp only [segToken, Option.filter] at hf
      by_cases hb : isBlankValue values tk
      · rw [if_pos hb] at hf
        injection hf with hf
        subst hf
        exact ⟨hseg, hb⟩
      · rw [if_neg hb] at hf
        cases hf
  · rintro ⟨hseg, hb⟩
    refine ⟨Seg.ph t, hseg, ?_⟩
    simp [segToken, Option.filter, hb]

/-! ## backend/generation/services/template_apply.py

An OOXML document is a zip archive; it is modelled as the list of its
members in archive order, each carrying its member metadata (name and
compression scheme, the parts of the ZipInfo that writestr(info, data)
reuses) and its raw bytes.  The xml parts are decoded with
bytes.decode("utf-8", errors="ignore") and re-encoded after substitution;
the byte level is modelled explicitly. -/

/-- A UTF-8 continuation byte. -/
def isCont (b : Nat) : Bool := 0x80 ≤ b && b ≤ 0xBF

/-- The admissible second byte of a multi-byte UTF-8 sequence, which for
the boundary lead bytes is narrower than the continuation range. -/
def validSecond (b0 b1 : Nat) : Bool :=
  if b0 = 0xE0 then 0xA0 ≤ b1 && b1 ≤ 0xBF
  else if b0 = 0xED then 0x80 ≤ b1 && b1 ≤ 0x9F
  else if b0 = 0xF0 then 0x90 ≤ b1 && b1 ≤ 0xBF
  else if b0 = 0xF4 then 0x80 ≤ b1 && b1 ≤ 0x8F
  else isCont b1

/-- The loop of bytes.decode("utf-8", errors="ignore") with a step budget
(each step consumes at least one byte): well-formed sequences decode to
their code point; an ill-formed or truncated sequence is dropped (its
maximal valid prefix is skipped) and decoding continues. -/
def utf8DecodeLoop : Nat → List Nat → List Char
  | 0, _ => []
  | _, [] => []
  | fuel + 1, b0 :: rest =>
    if b0 ≤ 0x7F then Char.ofNat b0 :: utf8DecodeLoop fuel rest
    else if 0xC2 ≤ b0 && b0 ≤ 0xDF then
      match rest with
      | [] => []
      | b1 :: rest1 =>
        if isCont b1 then
          Char.ofNat ((b0 - 0xC0) * 0x40 + (b1 - 0x80)) :: utf8DecodeLoop fuel rest1
        else utf8DecodeLoop fuel rest
    else if 0xE0 ≤ b0 && b0 ≤ 0xEF then
      match rest with
      | [] => []
      | b1 :: rest1 =>
        if validSecond b0 b1 then
          match rest1 with
          | [] => []
          | b2 :: rest2 =>
            if isCont b2 then
              Char.ofNat ((b0 - 0xE0) * 0x1000 + (b1 - 0x80) * 0x40 + (b2 - 0x80)) ::
                utf8DecodeLoop fuel rest2
            else utf8DecodeLoop fuel rest1
        else utf8DecodeLoop fuel rest
    else if 0xF0 ≤ b0 && b0 ≤ 0xF4 then
      match rest with
      | [] => []
      | b1 :: rest1 =>
        if validSecond b0 b1 then
          match rest1 with
          | [] => []
          | b2 :: rest2 =>
            if isCont b2 then
              match rest2 with
              | [] => []
              | b3 :: rest3 =>
                if isCont b3 then
                  Char.ofNat ((b0 - 0xF0) * 0x40000 + (b1 - 0x80) * 0x1000 +
                      (b2 - 0x80) * 0x40 + (b3 - 0x80)) :: utf8DecodeLoop fuel rest3
                else utf8DecodeLoop fuel rest2
            else utf8DecodeLoop fuel rest1
        else utf8DecodeLoop fuel rest
    else utf8DecodeLoop fuel rest

/-- bytes.decode("utf-8", errors="ignore"). -/
def utf8DecodeIgnore (bs : List Nat) : List Char := utf8DecodeLoop bs.length bs

/-- str.encode("utf-8") for one code point. -/
def utf8EncodeChar (c : Char) : List Nat :=
  let n := c.toNat
  if n ≤ 0x7F then [n]
  else if n ≤ 0x7FF then [0xC0 + n / 0x40, 0x80 + n % 0x40]
  else if n ≤ 0xFFFF then
    [0xE0 + n / 0x1000, 0x80 + (n / 0x40) % 0x40, 0x80 + n % 0x40]
  else
    [0xF0 + n / 0x40000, 0x80 + (n / 0x1000) % 0x40, 0x80 + (n / 0x40) % 0x40,
      0x80 + n % 0x40]

/-- str.encode("utf-8") for a whole string. -/
def utf8Encode (s : Str) : List Nat := (s.map utf8EncodeChar).flatten

/-- The member metadata a ZipInfo carries through writestr(info, data):
the member name and the compression scheme. -/
structure ZipInfo where
  filename : Str
  compressType : Nat
deriving DecidableEq

/-- One member of the archive, in archive order. -/
structure ZipEntry where
  info : ZipInfo
  data : List Nat
deriving DecidableEq

/-- OOXML_PART_PREFIXES: designated content roots per supported format. -/
def OOXML_PART_PREFIXES (ext : Str) : Option (List Str) :=
  if ext = ("docx").data then some [("word/").data]
  else if ext = ("pptx").data then some [("ppt/").data]
  else if ext = ("xlsx").data then some [("xl/").data]
  else none

/-- _is_target_xml: the member name ends in .xml and falls under one of the
format's content-root prefixes. -/
def _is_target_xml (ext name : Str) : Bool :=
  if ¬ ((".xml").data.isSuffixOf name) then false
  else
    match OOXML_PART_PREFIXES ext with
    | none => false
    | some roots => roots.any (fun p => p.isPrefixOf name)

/-- ext.lower().lstrip("."): the extension normalisation applied before the
format lookup. -/
def normalizeExt (ext : Str) : Str :=
  (pyLower ext).dropWhile (fun c => c = '.')

/-- The treatment of one archive member: a content-root xml part is decoded,
substituted and re-encoded, contributing its unresolved tokens; any other
part is copied unchanged with no contribution. -/
def applyToPart (ext : Str) (values : Str → Option Str) (e : ZipEntry) :
    ZipEntry × List Str :=
  if _is_target_xml ext e.info.filename then
    let xml := utf8DecodeIgnore e.data
    let res := replace_placeholders xml values
    (⟨e.info, utf8Encode res.1⟩, res.2)
  else (e, [])

/-- apply_placeholders_to_ooxml_bytes: normalise the extension, return the
input unchanged for an unsupported format, otherwise rewrite each member in
archive order and return the rewritten archive with the sorted set of
unresolved tokens across all parts. -/
def apply_placeholders_to_ooxml_bytes (entries : List ZipEntry) (ext : Str)
    (values : Str → Option Str) : List ZipEntry × List Str :=
  let ext := normalizeExt ext
  match OOXML_PART_PREFIXES ext with
  | none => (entries, [])
  | some _ =>
    let processed := entries.map (applyToPart ext values)
    (processed.map Prod.fst, sortedStrSet (processed.flatMap Prod.snd))

theorem replace_placeholders_noop {values : Str → Option Str} {xml : Str}
    (h : ∀ t ∈ (segmentsOf xml).filterMap segToken, isBlankValue values t) :
    (replace_placeholders xml values).1 = xml := by
  show (scanSub values xml.length xml).1 = xml
  rw [scanSub_fst]
  show ((segmentsOf xml).map (renderSeg values)).flatten = xml
  have hmap : (segmentsOf xml).map (renderSeg values) =
      (segmentsOf xml).map segText := by
    apply List.map_congr_left
    intro seg hseg
    cases seg with
    | lit c => rfl
    | ph tok =>
      have hb : isBlankValue values tok := by
        refine h tok ?_
        rw [List.mem_filterMap]
        exact ⟨Seg.ph tok, hseg, rfl⟩
      simp [renderSeg, segText, hb]
  rw [hmap, segmentsOf_flatten]

/-- C4, counterexample: a supported-format archive whose single qualifying
part consists of one invalid UTF-8 byte contains no matching tokens, yet
the part is not byte-identical after the round trip (decoding with
errors="ignore" drops the byte before re-encoding). -/
theorem C4_roundtrip_counterexample :
    _is_target_xml (normalizeExt ("docx").data) (("word/a.xml").data) = true
    ∧ extract_placeholder_tokens (utf8DecodeIgnore [0xFF]) = []
    ∧ (apply_placeholders_to_ooxml_bytes
          [⟨⟨("word/a.xml").data, 8⟩, [0xFF]⟩] (("docx").data) (fun _ => none)).1
        ≠ [⟨⟨("word/a.xml").data, 8⟩, [0xFF]⟩] := by
  decide

/-- C4 (amended): apply_placeholders_to_ooxml_bytes copies every part that
is not a content-root markup part unchanged (bytes, name and compression),
rewrites the archive member by member in order, returns the input unchanged
with an empty unresolved set for an unsupported format, and returns a
qualifying part byte-identical provided it contains no matching tokens and
its bytes are valid UTF-8 (decoding then re-encoding them is the
identity). -/
theorem C4_apply_placeholders_frame (entries : List ZipEntry) (ext : Str)
    (values : Str → Option Str) :
    (OOXML_PART_PREFIXES (normalizeExt ext) = none →
      apply_placeholders_to_ooxml_bytes entries ext values = (entries, []))
    ∧ (OOXML_PART_PREFIXES (normalizeExt ext) ≠ none →
      (apply_placeholders_to_ooxml_bytes entries ext values).1 =
        entries.map (fun e => (applyToPart (normalizeExt ext) values e).1))
    ∧ (∀ e : ZipEntry, (applyToPart (normalizeExt ext) values e).1.info = e.info)
    ∧ (∀ e : ZipEntry,
        _is_target_xml (normalizeExt ext) e.info.filename = false →
        applyToPart (normalizeExt ext) values e = (e, []))
    ∧ (∀ e : ZipEntry,
        _is_target_xml (normalizeExt ext) e.info.filename = true →
        (∀ t ∈ (segmentsOf (utf8DecodeIgnore e.data)).filterMap segToken,
          isBlankValue values t) →
        utf8Encode (utf8DecodeIgnore e.data) = e.data →
        (applyToPart (normalizeExt ext) values e).1 = e) := by
  refine ⟨?_, ?_, ?_, ?_, ?_⟩
  · intro hnone
    rw [apply_placeholders_to_ooxml_bytes]
    split
    · rfl
    · rename_i heq
      rw [hnone] at heq
      cases heq
  · intro hsome
    rw [apply_placeholders_to_ooxml_bytes]
    split
    · rename_i heq
      exact absurd heq hsome
    · show List.map Prod.fst (entries.map (applyToPart (normalizeExt ext) values)) = _
      rw [List.map_map]
      rfl
  · intro e
    rw [applyToPart]
    split
    · rfl
    · rfl
  · intro e htarget
    rw [applyToPart]
    rw [if_neg (by rw [htarget]; simp)]
  · intro e htarget hblank hvalid
    rw [applyToPart, if_pos htarget]
    show (ZipEntry.mk e.info
      (utf8Encode (replace_placeholders (utf8DecodeIgnore e.data) values).1)) = e
    rw [replace_placeholders_noop hblank, hvalid]

/-- Witness for C4 (amended) at concrete inputs: an unsupported extension
returns the archive unchanged; a binary part of a docx archive is copied
unchanged; a valid-UTF-8 qualifying part whose only token has no value is
byte-identical after the round trip. -/
theorem C4_apply_placeholders_frame_witness :
    apply_placeholders_to_ooxml_bytes [⟨⟨("word/a.xml").data, 8⟩, [0xFF]⟩]
        (("pdf").data) (fun _ => none) = ([⟨⟨("word/a.xml").data, 8⟩, [0xFF]⟩], [])
    ∧ applyToPart (normalizeExt ("docx").data) (fun _ => none)
        ⟨⟨("docProps/thumbnail.jpeg").data, 0⟩, [0, 255, 1]⟩ =
        (⟨⟨("docProps/thumbnail.jpeg").data, 0⟩, [0, 255, 1]⟩, [])
    ∧ (applyToPart (normalizeExt ("docx").data) (fun _ => none)
        ⟨⟨("word/document.xml").data, 8⟩, utf8Encode ("A {{X}} B").data⟩).1 =
        ⟨⟨("word/document.xml").data, 8⟩, utf8Encode ("A {{X}} B").data⟩ :=
  ⟨(C4_apply_placeholders_frame [⟨⟨("word/a.xml").data, 8⟩, [0xFF]⟩]
      (("pdf").data) (fun _ => none)).1 (by decide),
   (C4_apply_placeholders_frame [] (("docx").data) (fun _ => none)).2.2.2.1
      ⟨⟨("docProps/thumbnail.jpeg").data, 0⟩, [0, 255, 1]⟩ (by decide),
   (C4_apply_placeholders_frame [] (("docx").data) (fun _ => none)).2.2.2.2
      ⟨⟨("word/document.xml").data, 8⟩, utf8Encode ("A {{X}} B").data⟩
      (by decide) (by decide) (by decide)⟩

/-! ## backend/common/chunking.py -/

/-- ChunkConfig: target and overlap sizes in characters. -/
structure ChunkConfig where
  target_chars : Nat
  overlap_chars : Nat
deriving DecidableEq

/-- estimate_token_count: max(1, len(text) // 4). -/
def estimate_token_count (text : Str) : Nat := max 1 (text.length / 4)

/-- Python str.split("\n\n"): split on non-overlapping occurrences of the
two-newline separator, leftmost first; no occurrence yields the whole
string as the single part, and parts may be empty. -/
def splitParts : Str → List Str
  | [] => [[]]
  | '\n' :: '\n' :: rest => [] :: splitParts rest
  | c :: rest =>
    match splitParts rest with
    | h :: t => (c :: h) :: t
    | [] => [[c]]

/-- Python s[a:b] for 0 ≤ a ≤ b. -/
def pySlice (s : Str) (a b : Nat) : Str := (s.take b).drop a

/-- The while-loop slicing an over-long paragraph with a sliding window of
width target_chars and stride max(1, target_chars - overlap_chars): each
window is trimmed and kept if non-empty, and the loop stops once a window
reaches the end of the paragraph.  The step budget is the paragraph length
(the start index advances by at least one per iteration). -/
def windowLoop (target overlap : Nat) (p : Str) : Nat → Nat → List Str
  | 0, _ => []
  | fuel + 1, start =>
    if start < p.length then
      let e := min p.length (start + target)
      let w := pyStrip (pySlice p start e)
      let acc := if w = [] then [] else [w]
      if p.length ≤ e then acc
      else acc ++ windowLoop target overlap p fuel (start + max 1 (target - overlap))
    else []

/-- The accumulator state of split_text_deterministic: emitted chunks, the
paragraphs of the chunk being built, and its running length. -/
structure SplitState where
  chunks : List Str
  current : List Str
  currentLen : Nat
deriving DecidableEq

/-- flush_chunk: join the accumulated paragraphs with a blank line, trim,
emit if non-empty, and reset the accumulator. -/
def flushChunk (st : SplitState) : SplitState :=
  if st.current = [] then st
  else
    let chunk := pyStrip (List.intercalate (['\n', '\n'] : Str) st.current)
    { chunks := st.chunks ++ (if chunk = [] then [] else [chunk]),
      current := [], currentLen := 0 }

/-- The body of the paragraph loop of split_text_deterministic: accumulate
while the projected length fits the target, otherwise flush; a paragraph
that itself fits starts the next chunk, an over-long paragraph is sliced by
the sliding window and appended directly, bypassing the accumulator. -/
def stepParagraph (cfg : ChunkConfig) (st : SplitState) (p : Str) : SplitState :=
  let projected := st.currentLen + (if st.current = [] then 0 else 2) + p.length
  if projected ≤ cfg.target_chars then
    { st with current := st.current ++ [p], currentLen := projected }
  else
    let st1 := if st.current = [] then st else flushChunk st
    if p.length ≤ cfg.target_chars then
      { st1 with current := [p], currentLen := p.length }
    else
      { st1 with
        chunks := st1.chunks ++
          windowLoop cfg.target_chars cfg.overlap_chars p p.length 0,
        current := [], currentLen := 0 }

/-- split_text_deterministic: trim the text, split into trimmed non-empty
paragraphs on blank lines (whole text as one paragraph if none remain),
run the paragraph loop and flush the remainder. -/
def split_text_deterministic (text : Str) (cfg : ChunkConfig) : List Str :=
  let source := pyStrip text
  if source = [] then []
  else
    let parts := ((splitParts source).map pyStrip).filter (fun q => q ≠ [])
    let paragraphs := if parts = [] then [source] else parts
    (flushChunk (paragraphs.foldl (stepParagraph cfg) ⟨[], [], 0⟩)).chunks

/-- C8: split_text_deterministic is a pure deterministic function (equal
inputs give equal chunk lists); empty or whitespace-only input yields the
empty sequence; and a text that reduces to a single paragraph longer than
target_chars is sliced by the sliding window of width target_chars and
stride max(1, target_chars - overlap_chars), each window trimmed and
appended directly, without passing through the paragraph accumulator. -/
theorem C8_split_text_deterministic_spec (text : Str) (cfg : ChunkConfig) :
    (split_text_deterministic text cfg = split_text_deterministic text cfg)
    ∧ (pyStrip text = [] → split_text_deterministic text cfg = [])
    ∧ (∀ p : Str,
        ((splitParts (pyStrip text)).map pyStrip).filter (fun q => q ≠ []) = [p] →
        cfg.target_chars < p.length →
        split_text_deterministic text cfg =
          windowLoop cfg.target_chars cfg.overlap_chars p p.length 0) := by
  refine ⟨rfl, ?_, ?_⟩
  · intro hsrc
    rw [split_text_deterministic, if_pos hsrc]
  · intro p hpar hlong
    have hsrc : pyStrip text ≠ [] := by
      intro hz
      rw [hz] at hpar
      simp [splitParts, pyStrip] at hpar
    rw [split_text_deterministic, if_neg hsrc]
    simp only [hpar]
    have hpne : p ≠ [] := by
      have := List.of_mem_filter (a := p)
        (l := (splitParts (pyStrip text)).map pyStrip)
        (by rw [hpar]; exact List.mem_singleton.mpr rfl)
      simpa using this
    rw [if_neg (by simp [hpne])]
    show (flushChunk (stepParagraph cfg ⟨[], [], 0⟩ p)).chunks = _
    rw [stepParagraph]
    simp only
    rw [if_neg (by simp; omega)]
    rw [if_neg (by omega)]
    simp [flushChunk]

/-- Witness for C8 at concrete inputs: a whitespace-only text chunks to
nothing, and an 8-character single-paragraph text with target 5 and
overlap 2 is sliced by the window loop. -/
theorem C8_split_text_witness :
    split_text_deterministic ("  ").data ⟨5, 2⟩ = []
    ∧ split_text_deterministic ("abcdefgh").data ⟨5, 2⟩ =
        windowLoop 5 2 (("abcdefgh").data) 8 0
    ∧ windowLoop 5 2 (("abcdefgh").data) 8 0 = [("abcde").data, ("defgh").data] :=
  ⟨(C8_split_text_deterministic_spec (("  ").data) ⟨5, 2⟩).2.1 (by decide),
   (C8_split_text_deterministic_spec (("abcdefgh").data) ⟨5, 2⟩).2.2
      (("abcdefgh").data) (by decide) (by decide),
   by decide⟩

/-! ## backend/rag/services/retrieval.py, rrf_merge

Rows are dictionaries of which rrf_merge only reads "chunk_id"; they are
modelled as an arbitrary type α with a chunk-id projection.  The python
dicts scores and values preserve insertion order (existing keys keep their
position, new keys are appended), which the association-list model
reproduces; scores are exact rationals standing for the float expression
1.0 / (k + rank). -/

/-- scores[chunk_id] = scores.get(chunk_id, 0.0) + v on an insertion-ordered
dictionary. -/
def addScore : List (Str × ℚ) → Str → ℚ → List (Str × ℚ)
  | [], id, v => [(id, v)]
  | (key, s) :: rest, id, v =>
    if key = id then (key, s + v) :: rest else (key, s) :: addScore rest id v

/-- values[chunk_id] = row (last write wins). -/
def updateVal (m : Str → Option α) (id : Str) (row : α) : Str → Option α :=
  fun x => if x = id then some row else m x

/-- Dictionary lookup in the scores association list. -/
def lookupScore : List (Str × ℚ) → Str → Option ℚ
  | [], _ => none
  | (key, s) :: rest, id => if key = id then some s else lookupScore rest id

/-- One enumerate(rows, start=1) loop of rrf_merge: record the row under
its chunk id and add 1 / (k + rank) to its cumulative score. -/
def rrfPass (cid : α → Str) (k : Nat) :
    List α → Nat → List (Str × ℚ) × (Str → Option α) →
      List (Str × ℚ) × (Str → Option α)
  | [], _, st => st
  | row :: rows, rank, st =>
    rrfPass cid k rows (rank + 1)
      (addScore st.1 (cid row) ((1 : ℚ) / ((k + rank : Nat) : ℚ)),
        updateVal st.2 (cid row) row)

/-- sorted(...) key for scores.items(): ascending (-score, chunk_id), i.e.
descending score with ties broken by ascending chunk id. -/
def rrfKeyLe (a b : Str × ℚ) : Bool :=
  if a.2 = b.2 then strLe a.1 b.1 else decide (b.2 < a.2)

/-- rrf_merge: accumulate both passes, order by descending cumulative score
with ties broken by ascending chunk id, and return the rows of the first
top_n entries. -/
def rrf_merge (cid : α → Str) (vector_rows fts_rows : List α)
    (top_n : Nat) (k : Nat) : List α :=
  let st1 := rrfPass cid k vector_rows 1 ([], fun _ => none)
  let st2 := rrfPass cid k fts_rows 1 st1
  let ordered := sortBy rrfKeyLe st2.1
  (ordered.take top_n).filterMap (fun pr => st2.2 pr.1)

/-- The specification-side cumulative contribution of one source list to a
candidate: the sum of 1 / (k + r) over the 1-based ranks r at which the
candidate appears. -/
def rrfContrib (cid : α → Str) (k : Nat) (rows : List α) (id : Str) : ℚ :=
  ((List.enumFrom 1 rows).map
    (fun pr => if cid pr.2 = id then (1 : ℚ) / ((k + pr.1 : Nat) : ℚ) else 0)).sum

/-- The score recorded for id, defaulting to 0 when absent. -/
def scoreOf (m : List (Str × ℚ)) (id : Str) : ℚ := (lookupScore m id).getD 0

theorem lookupScore_addScore (m : List (Str × ℚ)) (id id' : Str) (v : ℚ) :
    lookupScore (addScore m id v) id' =
      if id' = id then some ((lookupScore m id).getD 0 + v)
      else lookupScore m id' := by
  induction m with
  | nil =>
    by_cases h : id' = id
    · subst h
      simp [addScore, lookupScore]
    · have h2 : ¬ id = id' := fun hh => h hh.symm
      simp [addScore, lookupScore, h, h2]
  | cons pr rest ih =>
    obtain ⟨key, s⟩ := pr
    by_cases hk : key = id
    · subst hk
      by_cases h : id' = key
      · subst h
        simp [addScore, lookupScore]
      · have h2 : ¬ key = id' := fun hh => h hh.symm
        simp [addScore, lookupScore, h, h2]
    · by_cases h2 : key = id'
      · subst h2
        simp [addScore, lookupScore, hk]
      · by_cases h : id' = id
        · subst h
          simp [addScore, lookupScore, hk, h2, ih]
        · simp [addScore, lookupScore, hk, h2, h, ih]

theorem scoreOf_rrfPass (cid : α → Str) (k : Nat) (id : Str) :
    ∀ (rows : List α) (rank : Nat)
      (st : List (Str × ℚ) × (Str → Option α)),
      scoreOf (rrfPass cid k rows rank st).1 id =
        scoreOf st.1 id +
          ((List.enumFrom rank rows).map
            (fun pr => if cid pr.2 = id then (1 : ℚ) / ((k + pr.1 : Nat) : ℚ)
              else 0)).sum := by
  intro rows
  induction rows with
  | nil => intro rank st; simp [rrfPass]
  | cons row rows ih =>
    intro rank st
    rw [rrfPass, ih]
    simp only [List.enumFrom_cons, List.map_cons, List.sum_cons]
    rw [scoreOf, lookupScore_addScore]
    by_cases h : id = cid row
    · rw [if_pos h, if_pos h.symm, ← h, Option.getD_some, scoreOf]
      ring
    · have h2 : ¬ cid row = id := fun hh => h hh.symm
      rw [if_neg h, if_neg h2, scoreOf]
      ring

theorem isSome_lookupScore_rrfPass (cid : α → Str) (k : Nat) (id : Str) :
    ∀ (rows : List α) (rank : Nat)
      (st : List (Str × ℚ) × (Str → Option α)),
      (lookupScore (rrfPass cid k rows rank st).1 id).isSome =
        ((lookupScore st.1 id).isSome || rows.any (fun r => cid r = id)) := by
  intro rows
  induction rows with
  | nil => intro rank st; simp [rrfPass]
  | cons row rows ih =>
    intro rank st
    rw [rrfPass, ih]
    simp only [List.any_cons]
    rw [lookupScore_addScore]
    by_cases h : id = cid row
    · simp [h]
    · have h2 : ¬ cid row = id := fun hh => h hh.symm
      simp [h, h2]

theorem strLe_total : ∀ a b : Str, strLe a b = true ∨ strLe b a = true := by
  intro a
  induction a with
  | nil => intro b; left; simp [strLe]
  | cons c cs ih =>
    intro b
    cases b with
    | nil => right; simp [strLe]
    | cons d ds =>
      by_cases h : c = d
      · subst h
        simpa [strLe] using ih ds
      · have h2 : ¬ d = c := fun hh => h hh.symm
        rcases lt_or_gt_of_ne h with hlt | hgt
        · left; simp [strLe, h, hlt]
        · right; simp [strLe, h2, hgt]

theorem strLe_trans :
    ∀ a b c : Str, strLe a b = true → strLe b c = true → strLe a c = true := by
  intro a
  induction a with
  | nil => intro b c _ _; simp [strLe]
  | cons x xs ih =>
    intro b c hab hbc
    cases b with
    | nil => simp [strLe] at hab
    | cons y ys =>
      cases c with
      | nil => simp [strLe] at hbc
      | cons z zs =>
        by_cases hxy : x = y
        · subst hxy
          by_cases hyz : x = z
          · subst hyz
            rw [strLe] at hab hbc ⊢
            simp only [if_pos rfl] at hab hbc ⊢
            exact ih ys zs hab hbc
          · rw [strLe, if_pos rfl] at hab
            rw [strLe, if_neg hyz] at hbc ⊢
            exact hbc
        · by_cases hyz : y = z
          · subst hyz
            rw [strLe, if_neg hxy] at hab ⊢
            exact hab
          · rw [strLe, if_neg hxy] at hab
            rw [strLe, if_neg hyz] at hbc
            by_cases hxz : x = z
            · exfalso
              subst hxz
              exact absurd (lt_trans (of_decide_eq_true hab)
                (of_decide_eq_true hbc)) (lt_irrefl x)
            · rw [strLe, if_neg hxz]
              exact decide_eq_true
                (lt_trans (of_decide_eq_true hab) (of_decide_eq_true hbc))

theorem rrfKeyLe_total : ∀ a b : Str × ℚ, rrfKeyLe a b = true ∨ rrfKeyLe b a = true := by
  intro a b
  by_cases h : a.2 = b.2
  · rw [rrfKeyLe, if_pos h, rrfKeyLe, if_pos h.symm]
    exact strLe_total a.1 b.1
  · have h2 : ¬ b.2 = a.2 := fun hh => h hh.symm
    rw [rrfKeyLe, if_neg h, rrfKeyLe, if_neg h2]
    rcases lt_or_gt_of_ne h with hlt | hgt
    · right; exact decide_eq_true hlt
    · left; exact decide_eq_true hgt

theorem rrfKeyLe_trans :
    ∀ a b c : Str × ℚ,
      rrfKeyLe a b = true → rrfKeyLe b c = true → rrfKeyLe a c = true := by
  intro a b c hab hbc
  by_cases h1 : a.2 = b.2
  · by_cases h2 : b.2 = c.2
    · rw [rrfKeyLe, if_pos h1] at hab
      rw [rrfKeyLe, if_pos h2] at hbc
      rw [rrfKeyLe, if_pos (h1.trans h2)]
      exact strLe_trans a.1 b.1 c.1 hab hbc
    · rw [rrfKeyLe, if_neg h2] at hbc
      have hc : c.2 < b.2 := of_decide_eq_true hbc
      have h3 : ¬ a.2 = c.2 := fun hh => h2 (h1.symm.trans hh).symm.symm
      rw [rrfKeyLe, if_neg h3]
      exact decide_eq_true (h1 ▸ hc)
  · have hb : b.2 < a.2 := of_decide_eq_true (by rw [rrfKeyLe, if_neg h1] at hab; exact hab)
    by_cases h2 : b.2 = c.2
    · have h3 : ¬ a.2 = c.2 := fun hh => h1 (hh.trans h2.symm)
      rw [rrfKeyLe, if_neg h3]
      exact decide_eq_true (h2 ▸ hb)
    · have hc : c.2 < b.2 := of_decide_eq_true (by rw [rrfKeyLe, if_neg h2] at hbc; exact hbc)
      have h3 : ¬ a.2 = c.2 := fun hh => absurd (hh ▸ (lt_trans hc hb)) (lt_irrefl _)
      rw [rrfKeyLe, if_neg h3]
      exact decide_eq_true (lt_trans hc hb)

theorem pairwise_insertBy {le : α → α → Bool}
    (htrans : ∀ a b c, le a b = true → le b c = true → le a c = true)
    (htot : ∀ a b, le a b = true ∨ le b a = true) (a : α) :
    ∀ l : List α, l.Pairwise (fun x y => le x y = true) →
      (insertBy le a l).Pairwise (fun x y => le x y = true) := by
  intro l
  induction l with
  | nil => intro _; simp [insertBy]
  | cons b t ih =>
    intro hl
    rw [List.pairwise_cons] at hl
    obtain ⟨hb, ht⟩ := hl
    by_cases h : le a b
    · rw [insertBy, if_pos h]
      rw [List.pairwise_cons]
      refine ⟨?_, List.pairwise_cons.mpr ⟨hb, ht⟩⟩
      intro y hy
      rcases List.mem_cons.mp hy with rfl | hyt
      · exact h
      · exact htrans a b y h (hb y hyt)
    · rw [insertBy, if_neg h]
      rw [List.pairwise_cons]
      refine ⟨?_, ih ht⟩
      intro y hy
      rcases mem_insertBy.mp hy with rfl | hyt
      · rcases htot b y with hby | hyb
        · exact hby
        · exact absurd hyb h
      · exact hb y hyt

theorem pairwise_sortBy {le : α → α → Bool}
    (htrans : ∀ a b c, le a b = true → le b c = true → le a c = true)
    (htot : ∀ a b, le a b = true ∨ le b a = true) (l : List α) :
    (sortBy le l).Pairwise (fun x y => le x y = true) := by
  induction l with
  | nil => simp [sortBy]
  | cons b t ih =>
    show (insertBy le b (sortBy le t)).Pairwise _
    exact pairwise_insertBy htrans htot b (sortBy le t) ih

/-- C3: rrf_merge gives each candidate at 1-based rank r of a source list
the contribution 1 / (k + r) with k = 60, sums the contributions of a
candidate present in both lists (a candidate is scored exactly when it
appears in one of the lists), orders candidates by descending cumulative
score with ties broken by ascending candidate id and returns the first
top_n; as a function it is deterministic, and fusing vector=[b,a] with
lexical=[a,b] yields the ordering [a,b]. -/
theorem C3_rrf_merge_spec {α : Type} (cid : α → Str) (vector_rows fts_rows : List α)
    (top_n : Nat) :
    (rrf_merge cid vector_rows fts_rows top_n 60 =
        rrf_merge cid vector_rows fts_rows top_n 60)
    ∧ (∀ id : Str,
        scoreOf (rrfPass cid 60 fts_rows 1
            (rrfPass cid 60 vector_rows 1 ([], fun _ => none))).1 id =
          rrfContrib cid 60 vector_rows id + rrfContrib cid 60 fts_rows id)
    ∧ (∀ id : Str,
        (lookupScore (rrfPass cid 60 fts_rows 1
            (rrfPass cid 60 vector_rows 1 ([], fun _ => none))).1 id).isSome =
          (vector_rows.any (fun r => cid r = id) || fts_rows.any (fun r => cid r = id)))
    ∧ ((sortBy rrfKeyLe (rrfPass cid 60 fts_rows 1
          (rrfPass cid 60 vector_rows 1 ([], fun _ => none))).1).take top_n).Pairwise
        (fun x y => rrfKeyLe x y = true)
    ∧ rrf_merge (Prod.fst : Str × Nat → Str)
        [(("b").data, 0), (("a").data, 0)]
        [(("a").data, 0), (("b").data, 0)] 10 60 =
      [(("a").data, 0), (("b").data, 0)] := by
  refine ⟨rfl, ?_, ?_, ?_, ?_⟩
  · intro id
    rw [scoreOf_rrfPass, scoreOf_rrfPass, rrfContrib, rrfContrib]
    simp [scoreOf, lookupScore]
  · intro id
    rw [isSome_lookupScore_rrfPass, isSome_lookupScore_rrfPass]
    simp [lookupScore]
  · exact List.Pairwise.sublist (List.take_sublist top_n _)
      (pairwise_sortBy rrfKeyLe_trans rrfKeyLe_total _)
  · have hba : ¬ ("b").data = ("a").data := by decide
    have hab : ¬ ("a").data = ("b").data := by decide
    have hstr : strLe (("b").data) (("a").data) = false := by decide
    simp [rrf_merge, rrfPass, addScore, updateVal, sortBy, insertBy, rrfKeyLe,
      hba, hab, hstr]
    rw [if_neg (fun h => h.1 (by ring))]
    decide

/-! ## backend/generation/services/variables.py

RagVariableValue rows for the fixed manual are a map token → row; the
variable schema (RagVariableKey) is a map token → key; the customer
profile and the caller overrides are maps token → string.  The two AI
helpers (_infer_with_ai / _draft_with_ai), which call the completion
service and may raise, are one oracle parameter returning the already
stripped value, the confidence and a provenance label, or an error. -/

/-- RagVariableValue.Source. -/
inductive Source : Type
  | CUSTOMER_INPUT | DEFAULT | AI_INFERRED | AI_DRAFTED | HUMAN_OVERRIDE
deriving DecidableEq

/-- RagVariableKey.GenerationPolicy. -/
inductive GenerationPolicy : Type
  | DETERMINISTIC | AI_INFER | AI_DRAFT
deriving DecidableEq

/-- The fields of a RagVariableValue row that the cascade reads or writes
(the row is keyed by token in the per-manual map). -/
structure VariableValueRow where
  value : Str
  source : Source
  confidence : Option ℚ
  provenance : Str
deriving DecidableEq

/-- The fields of a RagVariableKey the cascade reads. -/
structure VariableKey where
  default_value : Option Str
  generation_policy : GenerationPolicy
deriving DecidableEq

/-- Event levels of emit_event. -/
inductive EventLevel : Type
  | INFO | WARN | ERROR
deriving DecidableEq

/-- A structured progress event (message and level; payloads omitted). -/
structure Event where
  level : EventLevel
  message : Str
deriving DecidableEq

/-- The state threaded through the resolution loop: the per-manual
RagVariableValue rows, the values and source_by_token result dictionaries,
and the emitted events. -/
structure ResolveState where
  db : Str → Option VariableValueRow
  values : Str → Option Str
  sourceByToken : Str → Option Source
  events : List Event

/-- _upsert_variable_value followed by the values / source_by_token
assignments that every writing rule of the cascade performs. -/
def writeValue (st : ResolveState) (token value : Str) (source : Source)
    (confidence : Option ℚ) (prov : Str) : ResolveState :=
  { st with
    db := fun t => if t = token then some ⟨value, source, confidence, prov⟩ else st.db t,
    values := fun t => if t = token then some value else st.values t,
    sourceByToken := fun t => if t = token then some source else st.sourceByToken t }

/-- Reusing an existing row (rules 1 and 3): record value and source with
no database write. -/
def reuseValue (st : ResolveState) (token : Str) (row : VariableValueRow) :
    ResolveState :=
  { st with
    values := fun t => if t = token then some row.value else st.values t,
    sourceByToken := fun t => if t = token then some row.source else st.sourceByToken t }

/-- Append an emitted event. -/
def pushEvent (st : ResolveState) (level : EventLevel) (message : Str) :
    ResolveState :=
  { st with events := st.events ++ [⟨level, message⟩] }

/-- _profile_value: a non-blank string under the token itself, else under
the lowercased token, stripped; otherwise nothing. -/
def _profile_value (customer_profile : Str → Option Str) (token : Str) :
    Option Str :=
  match customer_profile token with
  | some direct =>
    if pyStrip direct ≠ [] then some (pyStrip direct)
    else
      match customer_profile (pyLower token) with
      | some lowered => if pyStrip lowered ≠ [] then some (pyStrip lowered) else none
      | none => none
  | none =>
    match customer_profile (pyLower token) with
    | some lowered => if pyStrip lowered ≠ [] then some (pyStrip lowered) else none
    | none => none

/-- The outcome of one AI helper call: stripped value, confidence and
provenance label, or a raised exception. -/
abbrev AiOracle : Type := GenerationPolicy → Str → Except Str (Str × ℚ × Str)

/-- The try-block of the cascade (rule 7): dispatch on the generation
policy, store a non-empty result under the matching AI source, log a
warning for an empty result, and log an error for a raised exception. -/
def aiStage (ai : AiOracle) (st : ResolveState) (token : Str)
    (key : VariableKey) : ResolveState :=
  let outcome : Except Str (Str × Option ℚ × Str × Source) :=
    match key.generation_policy with
    | .AI_INFER =>
      (ai .AI_INFER token).map (fun r => (r.1, some r.2.1, r.2.2, Source.AI_INFERRED))
    | .AI_DRAFT =>
      (ai .AI_DRAFT token).map (fun r => (r.1, some r.2.1, r.2.2, Source.AI_DRAFTED))
    | .DETERMINISTIC => Except.ok ([], none, [], Source.DEFAULT)
  match outcome with
  | .ok (value, confidence, prov, source) =>
    if value ≠ [] then writeValue st token value source confidence prov
    else pushEvent st .WARN ("Variable unresolved after AI step").data
  | .error _ => pushEvent st .ERROR ("Variable resolution failed").data

/-- Rules 5, 6 and 7 of the cascade: a usable (present, non-blank) schema
default is stored as DEFAULT; a token absent from the schema is skipped
with a warning; otherwise the AI stage runs. -/
def resolveFromSchema (keys : Str → Option VariableKey) (ai : AiOracle)
    (st : ResolveState) (token : Str) : ResolveState :=
  match keys token with
  | some key =>
    match key.default_value with
    | some dv =>
      if dv ≠ [] ∧ pyStrip dv ≠ [] then
        writeValue st token dv Source.DEFAULT (some 1) ("variable_key.default_value").data
      else aiStage ai st token key
    | none => aiStage ai st token key
  | none => pushEvent st .WARN ("Unknown variable key").data

/-- Rule 4: a non-blank caller override is stored as HUMAN_OVERRIDE. -/
def resolveRule4on (keys : Str → Option VariableKey)
    (human_overrides : Str → Option Str) (ai : AiOracle)
    (st : ResolveState) (token : Str) : ResolveState :=
  match human_overrides token with
  | some ov =>
    if pyStrip ov ≠ [] then
      writeValue st token (pyStrip ov) Source.HUMAN_OVERRIDE (some 1)
        ("request.overrides").data
    else resolveFromSchema keys ai st token
  | none => resolveFromSchema keys ai st token

/-- Rule 3: an existing HUMAN_OVERRIDE row is reused as-is. -/
def resolveRule3on (keys : Str → Option VariableKey)
    (snapshot : Str → Option VariableValueRow)
    (human_overrides : Str → Option Str) (ai : AiOracle)
    (st : ResolveState) (token : Str) : ResolveState :=
  match snapshot token with
  | some row =>
    if row.source = Source.HUMAN_OVERRIDE then reuseValue st token row
    else resolveRule4on keys human_overrides ai st token
  | none => resolveRule4on keys human_overrides ai st token

/-- Rule 2: a profile value is stored as CUSTOMER_INPUT. -/
def resolveRule2on (keys : Str → Option VariableKey)
    (snapshot : Str → Option VariableValueRow)
    (customer_profile human_overrides : Str → Option Str) (ai : AiOracle)
    (st : ResolveState) (token : Str) : ResolveState :=
  match _profile_value customer_profile token with
  | some pv =>
    writeValue st token pv Source.CUSTOMER_INPUT (some 1)
      ("request.customer_profile").data
  | none => resolveRule3on keys snapshot human_overrides ai st token

/-- The body of the per-token loop of resolve_required_variables: rule 1
(reuse an existing CUSTOMER_INPUT row) and the rest of the cascade.  The
snapshot is the existing dictionary fetched before the loop: rules 1 and 3
consult it, not the updated rows. -/
def resolveToken (keys : Str → Option VariableKey)
    (snapshot : Str → Option VariableValueRow)
    (customer_profile human_overrides : Str → Option Str) (ai : AiOracle)
    (st : ResolveState) (token : Str) : ResolveState :=
  match snapshot token with
  | some row =>
    if row.source = Source.CUSTOMER_INPUT then reuseValue st token row
    else resolveRule2on keys snapshot customer_profile human_overrides ai st token
  | none => resolveRule2on keys snapshot customer_profile human_overrides ai st token

/-- resolve_required_variables: fold the cascade over the required tokens
in order, starting from empty result dictionaries, with the existing rows
snapshotted once at entry. -/
def resolve_required_variables (keys : Str → Option VariableKey)
    (db0 : Str → Option VariableValueRow)
    (customer_profile human_overrides : Str → Option Str) (ai : AiOracle)
    (required_tokens : List Str) : ResolveState :=
  required_tokens.foldl
    (resolveToken keys db0 customer_profile human_overrides ai)
    { db := db0, values := fun _ => none, sourceByToken := fun _ => none,
      events := [] }

/-- C1: resolve_required_variables folds the per-token cascade over the
required tokens in order, and the cascade resolves a token by the first
matching rule: (1) an existing CUSTOMER_INPUT row is reused with no write;
(2) a non-blank profile value is stored as CUSTOMER_INPUT, confidence 1;
(3) an existing HUMAN_OVERRIDE row is reused; (4) a non-blank caller
override is stored as HUMAN_OVERRIDE, confidence 1; (5) a usable schema
default is stored as DEFAULT, confidence 1; (6) a token absent from the
schema is skipped with a warning and nothing else runs; (7) otherwise the
generation policy dispatches to AI inference or drafting (stored under the
matching AI source when non-empty, a warning otherwise, an error event on
an exception), and the DETERMINISTIC policy with no usable default leaves
the token unresolved with a warning. -/
theorem C1_resolve_cascade (keys : Str → Option VariableKey)
    (snapshot : Str → Option VariableValueRow)
    (profile overrides : Str → Option Str) (ai : AiOracle)
    (st : ResolveState) (token : Str) :
    (∀ tokens : List Str,
      resolve_required_variables keys snapshot profile overrides ai tokens =
        tokens.foldl (resolveToken keys snapshot profile overrides ai)
          ⟨snapshot, fun _ => none, fun _ => none, []⟩)
    ∧ (∀ row, snapshot token = some row → row.source = Source.CUSTOMER_INPUT →
        resolveToken keys snapshot profile overrides ai st token =
          reuseValue st token row)
    ∧ (∀ pv,
        (∀ row, snapshot token = some row → row.source ≠ Source.CUSTOMER_INPUT) →
        _profile_value profile token = some pv →
        resolveToken keys snapshot profile overrides ai st token =
          writeValue st token pv Source.CUSTOMER_INPUT (some 1)
            ("request.customer_profile").data)
    ∧ (∀ row,
        snapshot token = some row → row.source ≠ Source.CUSTOMER_INPUT →
        row.source = Source.HUMAN_OVERRIDE →
        _profile_value profile token = none →
        resolveToken keys snapshot profile overrides ai st token =
          reuseValue st token row)
    ∧ (∀ ov,
        (∀ row, snapshot token = some row →
          row.source ≠ Source.CUSTOMER_INPUT ∧ row.source ≠ Source.HUMAN_OVERRIDE) →
        _profile_value profile token = none →
        overrides token = some ov → pyStrip ov ≠ [] →
        resolveToken keys snapshot profile overrides ai st token =
          writeValue st token (pyStrip ov) Source.HUMAN_OVERRIDE (some 1)
            ("request.overrides").data)
    ∧ (∀ key dv,
        (∀ row, snapshot token = some row →
          row.source ≠ Source.CUSTOMER_INPUT ∧ row.source ≠ Source.HUMAN_OVERRIDE) →
        _profile_value profile token = none →
        (∀ ov, overrides token = some ov → pyStrip ov = []) →
        keys token = some key → key.default_value = some dv →
        dv ≠ [] → pyStrip dv ≠ [] →
        resolveToken keys snapshot profile overrides ai st token =
          writeValue st token dv Source.DEFAULT (some 1)
            ("variable_key.default_value").data)
    ∧ ((∀ row, snapshot token = some row →
          row.source ≠ Source.CUSTOMER_INPUT ∧ row.source ≠ Source.HUMAN_OVERRIDE) →
        _profile_value profile token = none →
        (∀ ov, overrides token = some ov → pyStrip ov = []) →
        keys token = none →
        resolveToken keys snapshot profile overrides ai st token =
          pushEvent st .WARN ("Unknown variable key").data)
    ∧ (∀ key,
        (∀ row, snapshot token = some row →
          row.source ≠ Source.CUSTOMER_INPUT ∧ row.source ≠ Source.HUMAN_OVERRIDE) →
        _profile_value profile token = none →
        (∀ ov, overrides token = some ov → pyStrip ov = []) →
        keys token = some key →
        (∀ dv, key.default_value = some dv → ¬(dv ≠ [] ∧ pyStrip dv ≠ [])) →
        resolveToken keys snapshot profile overrides ai st token =
          aiStage ai st token key)
    ∧ (∀ key v c p, key.generation_policy = GenerationPolicy.AI_INFER →
        ai .AI_INFER token = .ok (v, c, p) → v ≠ [] →
        aiStage ai st token key =
          writeValue st token v Source.AI_INFERRED (some c) p)
    ∧ (∀ key v c p, key.generation_policy = GenerationPolicy.AI_DRAFT →
        ai .AI_DRAFT token = .ok (v, c, p) → v ≠ [] →
        aiStage ai st token key =
          writeValue st token v Source.AI_DRAFTED (some c) p)
    ∧ (∀ key, key.generation_policy = GenerationPolicy.DETERMINISTIC →
        aiStage ai st token key =
          pushEvent st .WARN ("Variable unresolved after AI step").data)
    ∧ (∀ key e,
        (key.generation_policy = GenerationPolicy.AI_INFER ∧
          ai .AI_INFER token = .error e) ∨
        (key.generation_policy = GenerationPolicy.AI_DRAFT ∧
          ai .AI_DRAFT token = .error e) →
        aiStage ai st token key =
          pushEvent st .ERROR ("Variable resolution failed").data) := by
  have hRule2 :
      ∀ st' : ResolveState,
        (∀ row, snapshot token = some row → row.source ≠ Source.CUSTOMER_INPUT) →
        resolveToken keys snapshot profile overrides ai st' token =
          resolveRule2on keys snapshot profile overrides ai st' token := by
    intro st' h1
    cases hsnap : snapshot token with
    | none => simp [resolveToken, hsnap]
    | some row =>
      have hne := h1 row hsnap
      simp [resolveToken, hsnap, hne]
  have hRule3 :
      ∀ st' : ResolveState,
        _profile_value profile token = none →
        resolveRule2on keys snapshot profile overrides ai st' token =
          resolveRule3on keys snapshot overrides ai st' token := by
    intro st' h2
    simp [resolveRule2on, h2]
  have hRule4 :
      ∀ st' : ResolveState,
        (∀ row, snapshot token = some row →
          row.source ≠ Source.HUMAN_OVERRIDE) →
        resolveRule3on keys snapshot overrides ai st' token =
          resolveRule4on keys overrides ai st' token := by
    intro st' h3
    cases hsnap : snapshot token with
    | none => simp [resolveRule3on, hsnap]
    | some row =>
      have hne := h3 row hsnap
      simp [resolveRule3on, hsnap, hne]
  have hRule5 :
      ∀ st' : ResolveState,
        (∀ ov, overrides token = some ov → pyStrip ov = []) →
        resolveRule4on keys overrides ai st' token =
          resolveFromSchema keys ai st' token := by
    intro st' h4
    cases hov : overrides token with
    | none => simp [resolveRule4on, hov]
    | some ov =>
      have hblank := h4 ov hov
      simp [resolveRule4on, hov, hblank]
  refine ⟨fun _ => rfl, ?_, ?_, ?_, ?_, ?_, ?_, ?_, ?_, ?_, ?_, ?_⟩
  · intro row hsnap hsrc
    simp [resolveToken, hsnap, hsrc]
  · intro pv h1 h2
    rw [hRule2 st h1]
    simp [resolveRule2on, h2]
  · intro row hsnap hne hsrc h2
    rw [hRule2 st (fun r hr => by rw [hsnap] at hr; injection hr with hr; rw [← hr]; exact hne),
      hRule3 st h2]
    simp [resolveRule3on, hsnap, hsrc]
  · intro ov h1 h2 hov hnb
    rw [hRule2 st (fun r hr => (h1 r hr).1), hRule3 st h2,
      hRule4 st (fun r hr => (h1 r hr).2)]
    simp [resolveRule4on, hov, hnb]
  · intro key dv h1 h2 h4 hkey hdv hne hnb
    rw [hRule2 st (fun r hr => (h1 r hr).1), hRule3 st h2,
      hRule4 st (fun r hr => (h1 r hr).2), hRule5 st h4]
    simp [resolveFromSchema, hkey, hdv, hne, hnb]
  · intro h1 h2 h4 hkey
    rw [hRule2 st (fun r hr => (h1 r hr).1), hRule3 st h2,
      hRule4 st (fun r hr => (h1 r hr).2), hRule5 st h4]
    simp [resolveFromSchema, hkey]
  · intro key h1 h2 h4 hkey hdv
    rw [hRule2 st (fun r hr => (h1 r hr).1), hRule3 st h2,
      hRule4 st (fun r hr => (h1 r hr).2), hRule5 st h4]
    cases hdef : key.default_value with
    | none => simp [resolveFromSchema, hkey, hdef]
    | some dv =>
      have := hdv dv hdef
      simp [resolveFromSchema, hkey, hdef, this]
  · intro key v c p hpol hai hne
    simp [aiStage, hpol, hai, hne, Except.map]
  · intro key v c p hpol hai hne
    simp [aiStage, hpol, hai, hne, Except.map]
  · intro key hpol
    simp [aiStage, hpol]
  · intro key e hcase
    rcases hcase with ⟨hpol, hai⟩ | ⟨hpol, hai⟩
    · simp [aiStage, hpol, hai, Except.map]
    · simp [aiStage, hpol, hai, Except.map]

/-- Witness for C1 at concrete inputs: with no existing rows, no profile
value and no override, a schema default is stored as DEFAULT with
confidence 1, and a token absent from the schema only logs a warning. -/
theorem C1_resolve_cascade_witness :
    resolveToken (fun t => if t = ("SCOPE").data then
        some ⟨some ("Default scope").data, GenerationPolicy.DETERMINISTIC⟩ else none)
      (fun _ => none) (fun _ => none) (fun _ => none) (fun _ _ => .error [])
      ⟨fun _ => none, fun _ => none, fun _ => none, []⟩ (("SCOPE").data) =
      writeValue ⟨fun _ => none, fun _ => none, fun _ => none, []⟩
        (("SCOPE").data) (("Default scope").data) Source.DEFAULT (some 1)
        ("variable_key.default_value").data
    ∧ resolveToken (fun t => if t = ("SCOPE").data then
        some ⟨some ("Default scope").data, GenerationPolicy.DETERMINISTIC⟩ else none)
      (fun _ => none) (fun _ => none) (fun _ => none) (fun _ _ => .error [])
      ⟨fun _ => none, fun _ => none, fun _ => none, []⟩ (("OTHER").data) =
      pushEvent ⟨fun _ => none, fun _ => none, fun _ => none, []⟩ .WARN
        ("Unknown variable key").data :=
  ⟨(C1_resolve_cascade _ _ _ _ _ _ _).2.2.2.2.2.1
      ⟨some ("Default scope").data, GenerationPolicy.DETERMINISTIC⟩
      (("Default scope").data)
      (fun r hr => absurd hr (by simp)) (by decide)
      (fun ov hov => absurd hov (by simp)) (by decide) (by decide)
      (by decide) (by decide),
   (C1_resolve_cascade _ _ _ _ _ _ _).2.2.2.2.2.2.1
      (fun r hr => absurd hr (by simp)) (by decide)
      (fun ov hov => absurd hov (by simp)) (by decide)⟩

theorem aiStage_frame (ai : AiOracle) (st : ResolveState) (token : Str)
    (key : VariableKey) (t : Str) (hne : t ≠ token) :
    (aiStage ai st token key).db t = st.db t
    ∧ (aiStage ai st token key).values t = st.values t
    ∧ (aiStage ai st token key).sourceByToken t = st.sourceByToken t := by
  unfold aiStage
  cases hpol : key.generation_policy with
  | AI_INFER =>
    cases hai : ai GenerationPolicy.AI_INFER token with
    | ok r =>
      obtain ⟨v, c, p⟩ := r
      by_cases hv : v = []
      · simp [hai, Except.map, hv, pushEvent]
      · simp [hai, Except.map, hv, writeValue, hne]
    | error e => simp [hai, Except.map, pushEvent]
  | AI_DRAFT =>
    cases hai : ai GenerationPolicy.AI_DRAFT token with
    | ok r =>
      obtain ⟨v, c, p⟩ := r
      by_cases hv : v = []
      · simp [hai, Except.map, hv, pushEvent]
      · simp [hai, Except.map, hv, writeValue, hne]
    | error e => simp [hai, Except.map, pushEvent]
  | DETERMINISTIC => simp [pushEvent]

theorem resolveToken_frame (keys : Str → Option VariableKey)
    (snapshot : Str → Option VariableValueRow)
    (profile overrides : Str → Option Str) (ai : AiOracle)
    (st : ResolveState) (token t : Str) (hne : t ≠ token) :
    (resolveToken keys snapshot profile overrides ai st token).db t = st.db t
    ∧ (resolveToken keys snapshot profile overrides ai st token).values t =
        st.values t
    ∧ (resolveToken keys snapshot profile overrides ai st token).sourceByToken t =
        st.sourceByToken t := by
  unfold resolveToken resolveRule2on resolveRule3on resolveRule4on
    resolveFromSchema
  refine ⟨?_, ?_, ?_⟩ <;> (repeat' split) <;>
    first
      | exact (aiStage_frame ai st token _ t hne).1
      | exact (aiStage_frame ai st token _ t hne).2.1
      | exact (aiStage_frame ai st token _ t hne).2.2
      | simp [writeValue, reuseValue, pushEvent, hne]

theorem resolveToken_reuse_customer (keys : Str → Option VariableKey)
    (snapshot : Str → Option VariableValueRow)
    (profile overrides : Str → Option Str) (ai : AiOracle)
    (st : ResolveState) (t : Str) (row : VariableValueRow)
    (hsnap : snapshot t = some row)
    (hsrc : row.source = Source.CUSTOMER_INPUT) :
    resolveToken keys snapshot profile overrides ai st t = reuseValue st t row := by
  simp [resolveToken, hsnap, hsrc]

theorem foldl_resolve_frame (keys : Str → Option VariableKey)
    (snapshot : Str → Option VariableValueRow)
    (profile overrides : Str → Option Str) (ai : AiOracle) (t : Str) :
    ∀ (l : List Str) (st : ResolveState), t ∉ l →
      ((l.foldl (resolveToken keys snapshot profile overrides ai) st).db t = st.db t
      ∧ (l.foldl (resolveToken keys snapshot profile overrides ai) st).values t =
          st.values t
      ∧ (l.foldl (resolveToken keys snapshot profile overrides ai) st).sourceByToken t =
          st.sourceByToken t) := by
  intro l
  induction l with
  | nil => intro st _; exact ⟨rfl, rfl, rfl⟩
  | cons u rest ih =>
    intro st hnot
    have hne : t ≠ u := fun hh => hnot (hh ▸ List.mem_cons_self u rest)
    have hrest : t ∉ rest := fun hh => hnot (List.mem_cons_of_mem u hh)
    obtain ⟨ihd, ihv, ihs⟩ := ih (resolveToken keys snapshot profile overrides ai st u) hrest
    obtain ⟨fd, fv, fs⟩ := resolveToken_frame keys snapshot profile overrides ai st u t hne
    exact ⟨ihd.trans fd, ihv.trans fv, ihs.trans fs⟩

theorem foldl_resolve_db_customer (keys : Str → Option VariableKey)
    (snapshot : Str → Option VariableValueRow)
    (profile overrides : Str → Option Str) (ai : AiOracle) (t : Str)
    (row : VariableValueRow) (hsnap : snapshot t = some row)
    (hsrc : row.source = Source.CUSTOMER_INPUT) :
    ∀ (l : List Str) (st : ResolveState), st.db t = some row →
      (l.foldl (resolveToken keys snapshot profile overrides ai) st).db t = some row := by
  intro l
  induction l with
  | nil => intro st h; exact h
  | cons u rest ih =>
    intro st h
    refine ih _ ?_
    by_cases hne : t = u
    · subst hne
      rw [resolveToken_reuse_customer keys snapshot profile overrides ai st t row hsnap hsrc]
      exact h
    · rw [(resolveToken_frame keys snapshot profile overrides ai st u t hne).1]
      exact h

theorem foldl_resolve_values_customer (keys : Str → Option VariableKey)
    (snapshot : Str → Option VariableValueRow)
    (profile overrides : Str → Option Str) (ai : AiOracle) (t : Str)
    (row : VariableValueRow) (hsnap : snapshot t = some row)
    (hsrc : row.source = Source.CUSTOMER_INPUT) :
    ∀ (l : List Str) (st : ResolveState), t ∈ l →
      ((l.foldl (resolveToken keys snapshot profile overrides ai) st).values t =
          some row.value
      ∧ (l.foldl (resolveToken keys snapshot profile overrides ai) st).sourceByToken t =
          some row.source) := by
  intro l
  induction l with
  | nil => intro st h; cases h
  | cons u rest ih =>
    intro st hmem
    by_cases hrest : t ∈ rest
    · exact ih _ hrest
    · have ht : t = u := by
        rcases List.mem_cons.mp hmem with h | h
        · exact h
        · exact absurd h hrest
      subst ht
      have hstep :=
        resolveToken_reuse_customer keys snapshot profile overrides ai st t row hsnap hsrc
      obtain ⟨-, fv, fs⟩ := foldl_resolve_frame keys snapshot profile overrides ai t rest
        (resolveToken keys snapshot profile overrides ai st t) hrest
      rw [List.foldl_cons, fv, fs, hstep]
      simp [reuseValue]

/-! ## backend/generation/services/execution.py, _build_effective_map -/

/-- One _apply(overrides) pass of _build_effective_map, as a map: an
override for a token whose persisted source is CUSTOMER_INPUT is skipped,
a blank override is skipped, any other override wins over the layer
below after stripping. -/
def applyOverrides (source_by_token : Str → Option Source)
    (merged overrides : Str → Option Str) : Str → Option Str :=
  fun token =>
    match overrides token with
    | none => merged token
    | some value =>
      if source_by_token token = some Source.CUSTOMER_INPUT then merged token
      else if pyStrip value = [] then merged token
      else some (pyStrip value)

/-- _build_effective_map: the resolved base values with the global
overrides applied, then the per-file overrides applied on top. -/
def _build_effective_map (base_values : Str → Option Str)
    (source_by_token : Str → Option Source)
    (global_overrides file_overrides : Str → Option Str) : Str → Option Str :=
  applyOverrides source_by_token
    (applyOverrides source_by_token base_values global_overrides)
    file_overrides

/-- C2: a persisted CUSTOMER_INPUT row survives any later resolution call
unchanged (the cascade reuses it, writing nothing, and returns its value
and source for the token); and the render-time merge never applies a
global or per-output override to a token whose persisted source is
CUSTOMER_INPUT, while for any other source the per-output override wins
over the global override, the global override applies in its absence, and
a token with no overrides keeps its base value. -/
theorem C2_customer_input_protection (keys : Str → Option VariableKey)
    (db0 : Str → Option VariableValueRow)
    (profile overrides : Str → Option Str) (ai : AiOracle)
    (tokens : List Str) (t : Str)
    (base : Str → Option Str) (sbt : Str → Option Source)
    (g f : Str → Option Str) :
    (∀ row, db0 t = some row → row.source = Source.CUSTOMER_INPUT →
      ((resolve_required_variables keys db0 profile overrides ai tokens).db t =
          some row
      ∧ (t ∈ tokens →
          (resolve_required_variables keys db0 profile overrides ai tokens).values t =
              some row.value
          ∧ (resolve_required_variables keys db0 profile overrides ai
              tokens).sourceByToken t = some Source.CUSTOMER_INPUT)))
    ∧ (sbt t = some Source.CUSTOMER_INPUT →
        _build_effective_map base sbt g f t = base t)
    ∧ (¬ sbt t = some Source.CUSTOMER_INPUT → ∀ v, f t = some v →
        pyStrip v ≠ [] → _build_effective_map base sbt g f t = some (pyStrip v))
    ∧ (¬ sbt t = some Source.CUSTOMER_INPUT → f t = none → ∀ v, g t = some v →
        pyStrip v ≠ [] → _build_effective_map base sbt g f t = some (pyStrip v))
    ∧ (f t = none → g t = none → _build_effective_map base sbt g f t = base t) := by
  refine ⟨?_, ?_, ?_, ?_, ?_⟩
  · intro row hdb hsrc
    refine ⟨?_, ?_⟩
    · exact foldl_resolve_db_customer keys db0 profile overrides ai t row hdb hsrc
        tokens _ hdb
    · intro hmem
      have h := foldl_resolve_values_customer keys db0 profile overrides ai t row
        hdb hsrc tokens
        ⟨db0, fun _ => none, fun _ => none, []⟩ hmem
      refine ⟨h.1, ?_⟩
      show (List.foldl (resolveToken keys db0 profile overrides ai)
          ⟨db0, fun _ => none, fun _ => none, []⟩ tokens).sourceByToken t = _
      rw [h.2, hsrc]
  · intro hci
    cases hf : f t with
    | none =>
      cases hg : g t with
      | none => simp [_build_effective_map, applyOverrides, hf, hg]
      | some v => simp [_build_effective_map, applyOverrides, hf, hg, hci]
    | some v =>
      cases hg : g t with
      | none => simp [_build_effective_map, applyOverrides, hf, hg, hci]
      | some w => simp [_build_effective_map, applyOverrides, hf, hg, hci]
  · intro hci v hf hnb
    simp [_build_effective_map, applyOverrides, hf, hci, hnb]
  · intro hci hf v hg hnb
    simp [_build_effective_map, applyOverrides, hf, hg, hci, hnb]
  · intro hf hg
    simp [_build_effective_map, applyOverrides, hf, hg]

/-- Witness for C2 at the precedence test inputs: COMPANY_NAME resolved as
customer input keeps its base value against both override layers, SCOPE
(a default) takes the per-file override over the global one, and a
persisted CUSTOMER_INPUT row survives a resolution call that supplies an
override for its token. -/
theorem C2_customer_input_protection_witness :
    _build_effective_map
        (fun u => if u = ("COMPANY_NAME").data then some (("Customer GmbH").data)
          else if u = ("SCOPE").data then some (("Initial scope").data) else none)
        (fun u => if u = ("COMPANY_NAME").data then some Source.CUSTOMER_INPUT
          else if u = ("SCOPE").data then some Source.DEFAULT else none)
        (fun u => if u = ("COMPANY_NAME").data then some (("Override GmbH").data)
          else if u = ("SCOPE").data then some (("Global scope").data) else none)
        (fun u => if u = ("SCOPE").data then some (("File scope").data) else none)
        (("COMPANY_NAME").data) = some (("Customer GmbH").data)
    ∧ _build_effective_map
        (fun u => if u = ("COMPANY_NAME").data then some (("Customer GmbH").data)
          else if u = ("SCOPE").data then some (("Initial scope").data) else none)
        (fun u => if u = ("COMPANY_NAME").data then some Source.CUSTOMER_INPUT
          else if u = ("SCOPE").data then some Source.DEFAULT else none)
        (fun u => if u = ("COMPANY_NAME").data then some (("Override GmbH").data)
          else if u = ("SCOPE").data then some (("Global scope").data) else none)
        (fun u => if u = ("SCOPE").data then some (("File scope").data) else none)
        (("SCOPE").data) = some (("File scope").data)
    ∧ (resolve_required_variables (fun _ => none)
        (fun u => if u = ("COMPANY_NAME").data then
          some ⟨("Customer GmbH").data, Source.CUSTOMER_INPUT, some 1, []⟩ else none)
        (fun _ => none)
        (fun u => if u = ("COMPANY_NAME").data then
          some (("Override GmbH").data) else none)
        (fun _ _ => .error []) [("COMPANY_NAME").data]).db (("COMPANY_NAME").data) =
        some ⟨("Customer GmbH").data, Source.CUSTOMER_INPUT, some 1, []⟩ :=
  ⟨(C2_customer_input_protection (fun _ => none) (fun _ => none) (fun _ => none)
      (fun _ => none) (fun _ _ => .error []) [] (("COMPANY_NAME").data)
      (fun u => if u = ("COMPANY_NAME").data then some (("Customer GmbH").data)
          else if u = ("SCOPE").data then some (("Initial scope").data) else none)
      (fun u => if u = ("COMPANY_NAME").data then some Source.CUSTOMER_INPUT
          else if u = ("SCOPE").data then some Source.DEFAULT else none)
      (fun u => if u = ("COMPANY_NAME").data then some (("Override GmbH").data)
          else if u = ("SCOPE").data then some (("Global scope").data) else none)
      (fun u => if u = ("SCOPE").data then some (("File scope").data) else none)).2.1
      (by decide),
   (C2_customer_input_protection (fun _ => none) (fun _ => none) (fun _ => none)
      (fun _ => none) (fun _ _ => .error []) [] (("SCOPE").data)
      (fun u => if u = ("COMPANY_NAME").data then some (("Customer GmbH").data)
          else if u = ("SCOPE").data then some (("Initial scope").data) else none)
      (fun u => if u = ("COMPANY_NAME").data then some Source.CUSTOMER_INPUT
          else if u = ("SCOPE").data then some Source.DEFAULT else none)
      (fun u => if u = ("COMPANY_NAME").data then some (("Override GmbH").data)
          else if u = ("SCOPE").data then some (("Global scope").data) else none)
      (fun u => if u = ("SCOPE").data then some (("File scope").data) else none)).2.2.1
      (by decide) (("File scope").data) (by decide) (by decide),
   ((C2_customer_input_protection (fun _ => none)
      (fun u => if u = ("COMPANY_NAME").data then
        some ⟨("Customer GmbH").data, Source.CUSTOMER_INPUT, some 1, []⟩ else none)
      (fun _ => none)
      (fun u => if u = ("COMPANY_NAME").data then
        some (("Override GmbH").data) else none)
      (fun _ _ => .error []) [("COMPANY_NAME").data] (("COMPANY_NAME").data)
      (fun _ => none) (fun _ => none) (fun _ => none) (fun _ => none)).1
      ⟨("Customer GmbH").data, Source.CUSTOMER_INPUT, some 1, []⟩
      (by decide) (by decide)).1⟩

/-! ## backend/common/openai_client.py (chat_json) and
backend/generation/services/planning.py

JSON payloads are modelled as python values.  One model call + parse
attempt (client.chat.completions.create, _strip_fence, json.loads) is an
oracle indexed by the attempt number, yielding either the parsed JSON
value (of any shape) or a parse failure.  The deterministic fallback plan
(_deterministic_plan, computed from template and placeholder records) is
an abstract parameter: the claims concern only how the orchestrator
dispatches between it and the AI payload. -/

/-- A parsed python/JSON value. -/
inductive PyVal : Type
  | pstr (s : Str)
  | pnum (n : Int)
  | plist (xs : List PyVal)
  | pdict (entries : List (Str × PyVal))
  | pnone

/-- dict.get on a python dict (first matching key). -/
def pyGet : List (Str × PyVal) → Str → Option PyVal
  | [], _ => none
  | (k, v) :: rest, key => if k = key then some v else pyGet rest key

/-- dict assignment, keeping the position of an existing key. -/
def setKey : List (Str × PyVal) → Str → PyVal → List (Str × PyVal)
  | [], key, v => [(key, v)]
  | (k, v0) :: rest, key, v =>
    if k = key then (k, v) :: rest else (k, v0) :: setKey rest key v

/-- isinstance(x, list) on an optional lookup result. -/
def isList : Option PyVal → Bool
  | some (.plist _) => true
  | _ => false

/-- fallback[key]; the deterministic fallback always carries the keys
this is used with, so the missing-key KeyError path never runs. -/
def fallbackGet (fallback : PyVal) (key : Str) : PyVal :=
  match fallback with
  | .pdict entries => (pyGet entries key).getD .pnone
  | _ => .pnone

/-- The loop of chat_json over range(retries + 1): the first attempt whose
message parses to a JSON object is returned; a parse failure or a
non-object payload (the ValueError branch) moves to the next attempt; an
exhausted budget raises RuntimeError. -/
def chatAttempts (responses : Nat → Except Str PyVal) : Nat → Nat → Except Str PyVal
  | _, 0 => .error (("Model did not return valid JSON").data)
  | i, n + 1 =>
    match responses i with
    | .ok (.pdict entries) => .ok (.pdict entries)
    | _ => chatAttempts responses (i + 1) n

/-- chat_json with the given retry budget. -/
def chat_json (retries : Nat) (responses : Nat → Except Str PyVal) :
    Except Str PyVal :=
  chatAttempts responses 0 (retries + 1)

/-- _validate_plan: a payload that is not a dict, or whose outputs field is
not a list, is discarded for the fallback; otherwise the token lists are
patched from the fallback when they are not lists. -/
def _validate_plan (payload fallback : PyVal) : PyVal :=
  match payload with
  | .pdict entries =>
    if isList (pyGet entries (("outputs").data)) then
      let e1 :=
        if isList (pyGet entries (("required_tokens").data)) then entries
        else setKey entries (("required_tokens").data)
          (fallbackGet fallback (("required_tokens").data))
      let e2 :=
        if isList (pyGet e1 (("unknown_tokens").data)) then e1
        else setKey e1 (("unknown_tokens").data)
          (fallbackGet fallback (("unknown_tokens").data))
      .pdict e2
    else fallback
  | _ => fallback

/-- build_generation_plan, from the already computed deterministic
fallback: one chat_json call with retries=1 validated against the
fallback; a chat_json failure propagates (there is no try around it). -/
def build_generation_plan (fallback : PyVal)
    (responses : Nat → Except Str PyVal) : Except Str PyVal :=
  (chat_json 1 responses).map (fun payload => _validate_plan payload fallback)

theorem chatAttempts_ok_dict (responses : Nat → Except Str PyVal) :
    ∀ (n i : Nat) (v : PyVal), chatAttempts responses i n = .ok v →
      ∃ entries, v = .pdict entries := by
  intro n
  induction n with
  | zero => intro i v h; cases h
  | succ m ih =>
    intro i v h
    rw [chatAttempts] at h
    revert h
    split
    · rename_i entries heq
      intro h
      injection h with h
      exact ⟨entries, h.symm⟩
    · intro h
      exact ih (i + 1) v h

theorem chatAttempts_all_fail (responses : Nat → Except Str PyVal) :
    ∀ (n i : Nat),
      (∀ j, j < n → ∀ entries, responses (i + j) ≠ .ok (.pdict entries)) →
      chatAttempts responses i n = .error (("Model did not return valid JSON").data) := by
  intro n
  induction n with
  | zero => intro i _; rfl
  | succ m ih =>
    intro i hfail
    rw [chatAttempts]
    split
    · rename_i entries heq
      exact absurd heq (by simpa using hfail 0 (Nat.succ_pos m) entries)
    · refine ih (i + 1) ?_
      intro j hj entries
      have := hfail (j + 1) (by omega) entries
      simpa [Nat.add_assoc, Nat.add_comm 1 j] using this

/-- C6, counterexample: when no attempt of the bounded retry parses to a
JSON object (here every model message fails to parse), chat_json raises
RuntimeError and build_generation_plan propagates the failure instead of
returning the deterministic fallback plan. -/
theorem C6_fallback_counterexample :
    build_generation_plan
        (PyVal.pdict [(("outputs").data, PyVal.plist []),
          (("required_tokens").data, PyVal.plist []),
          (("unknown_tokens").data, PyVal.plist [])])
        (fun _ => .error (("parse error").data)) =
      .error (("Model did not return valid JSON").data)
    ∧ build_generation_plan
        (PyVal.pdict [(("outputs").data, PyVal.plist []),
          (("required_tokens").data, PyVal.plist []),
          (("unknown_tokens").data, PyVal.plist [])])
        (fun _ => .error (("parse error").data)) ≠
      .ok (PyVal.pdict [(("outputs").data, PyVal.plist []),
        (("required_tokens").data, PyVal.plist []),
        (("unknown_tokens").data, PyVal.plist [])]) := by
  refine ⟨rfl, ?_⟩
  intro h
  cases h

/-- C6 (amended): build_generation_plan returns the deterministic fallback
plan whenever chat_json yields a payload whose outputs field is not a
list; every payload chat_json yields is a JSON object (a non-object
attempt is retried as a parse failure); and when no attempt of the bounded
retry parses to a JSON object, chat_json raises and build_generation_plan
propagates the error instead of falling back. -/
theorem C6_plan_fallback (fallback : PyVal) (responses : Nat → Except Str PyVal) :
    (∀ entries, chat_json 1 responses = .ok (.pdict entries) →
      isList (pyGet entries (("outputs").data)) = false →
      build_generation_plan fallback responses = .ok fallback)
    ∧ (∀ v, chat_json 1 responses = .ok v → ∃ entries, v = .pdict entries)
    ∧ ((∀ j, j < 2 → ∀ entries, responses j ≠ .ok (.pdict entries)) →
      build_generation_plan fallback responses =
        .error (("Model did not return valid JSON").data)) := by
  refine ⟨?_, ?_, ?_⟩
  · intro entries hok houtputs
    rw [build_generation_plan, hok]
    simp [Except.map, _validate_plan, houtputs]
  · intro v hok
    exact chatAttempts_ok_dict responses 2 0 v hok
  · intro hfail
    rw [build_generation_plan, chat_json,
      chatAttempts_all_fail responses 2 0
        (fun j hj entries => by rw [Nat.zero_add]; exact hfail j hj entries)]
    rfl

/-- Witness for C6 (amended) at concrete inputs: a payload whose outputs
field is a string falls back to the deterministic plan. -/
theorem C6_plan_fallback_witness :
    build_generation_plan
        (PyVal.pdict [(("outputs").data, PyVal.plist []),
          (("required_tokens").data, PyVal.plist []),
          (("unknown_tokens").data, PyVal.plist [])])
        (fun _ => .ok (PyVal.pdict [(("outputs").data, PyVal.pstr (("x").data))])) =
      .ok (PyVal.pdict [(("outputs").data, PyVal.plist []),
        (("required_tokens").data, PyVal.plist []),
        (("unknown_tokens").data, PyVal.plist [])]) :=
  (C6_plan_fallback
      (PyVal.pdict [(("outputs").data, PyVal.plist []),
        (("required_tokens").data, PyVal.plist []),
        (("unknown_tokens").data, PyVal.plist [])])
      (fun _ => .ok (PyVal.pdict [(("outputs").data, PyVal.pstr (("x").data))]))).1
    [(("outputs").data, PyVal.pstr (("x").data))] rfl (by decide)

/-! ## backend/generation/services/execution.py, execute_generation

The per-entry loop over plan outputs.  The template lookup
(RagAsset.objects.get, DoesNotExist → error result) and the whole try
block of one entry (read the template bytes, build the effective map,
render, write and register the output — any exception becomes this entry's
error result) are oracle parameters; the loop's selection, counting and
classification logic is modelled exactly. -/

/-- The plan output fields the loop reads. -/
structure PlanOutput where
  template_asset_id : Str
  output_rel_path : Str
deriving DecidableEq

/-- The template asset fields the loop reads. -/
structure TemplateAsset where
  id : Str
  package_rel_path : Str
deriving DecidableEq

/-- status of one per-file result record. -/
inductive FileStatus : Type
  | generated | error
deriving DecidableEq

/-- One per-file result record of the report. -/
structure FileResult where
  template_asset_id : Str
  template_path : Option Str
  output_asset_id : Option Str
  status : FileStatus
  error : Option Str
  unresolved_tokens : List Str
deriving DecidableEq

/-- What one plan entry contributed: skipped by the caller selection (no
record), an error record, or a generated record. -/
inductive EntryOutcome : Type
  | skipped
  | failed (r : FileResult)
  | generated (r : FileResult)
deriving DecidableEq

/-- The body of the per-entry loop: the selection filter, the missing-id
error, the template lookup error, and the try block outcome. -/
def processOutput (selected : List Str) (getAsset : Str → Option TemplateAsset)
    (tryRender : TemplateAsset → PlanOutput → Except Str (Str × List Str))
    (item : PlanOutput) : EntryOutcome :=
  if selected ≠ [] ∧ item.template_asset_id ∉ selected then .skipped
  else if item.template_asset_id = [] then
    .failed ⟨[], none, none, .error,
      some (("Missing template_asset_id in plan output").data), []⟩
  else
    match getAsset item.template_asset_id with
    | none =>
      .failed ⟨item.template_asset_id, none, none, .error,
        some (("Template asset not found").data), []⟩
    | some asset =>
      match tryRender asset item with
      | .ok (output_asset_id, unresolved) =>
        .generated ⟨asset.id, some asset.package_rel_path, some output_asset_id,
          .generated, none, unresolved⟩
      | .error e =>
        .failed ⟨asset.id, some asset.package_rel_path, none, .error, some e, []⟩

/-- The loop over the plan outputs: file_results in plan order and the
generated / failed / skipped counters. -/
def executeLoop (selected : List Str) (getAsset : Str → Option TemplateAsset)
    (tryRender : TemplateAsset → PlanOutput → Except Str (Str × List Str)) :
    List PlanOutput → List FileResult × Nat × Nat × Nat
  | [] => ([], 0, 0, 0)
  | item :: rest =>
    let (rs, g, f, s) := executeLoop selected getAsset tryRender rest
    match processOutput selected getAsset tryRender item with
    | .skipped => (rs, g, f, s + 1)
    | .failed r => (r :: rs, g, f + 1, s)
    | .generated r => (r :: rs, g + 1, f, s)

/-- The run status classification at the end of execute_generation. -/
def classifyStatus (generated failed : Nat) : Str :=
  if failed > 0 ∧ generated = 0 then ("FAILED").data
  else if failed > 0 then ("PARTIAL").data
  else ("SUCCEEDED").data

/-- The report assembled by execute_generation: status, per-file results
and the summary counts (total is the length of the result list). -/
structure GenerationReport where
  status : Str
  files : List FileResult
  total : Nat
  generated : Nat
  failed : Nat
  skipped : Nat
deriving DecidableEq

/-- execute_generation from the plan outputs (the plan, variable
resolution and storage being handled by the functions modelled above and
the oracles). -/
def execute_generation (selected : List Str)
    (getAsset : Str → Option TemplateAsset)
    (tryRender : TemplateAsset → PlanOutput → Except Str (Str × List Str))
    (outputs : List PlanOutput) : GenerationReport :=
  let (rs, g, f, s) := executeLoop selected getAsset tryRender outputs
  { status := classifyStatus g f, files := rs, total := rs.length,
    generated := g, failed := f, skipped := s }

/-- The record an entry outcome contributes to file_results, if any. -/
def outcomeRecord : EntryOutcome → Option FileResult
  | .skipped => none
  | .failed r => some r
  | .generated r => some r

/-- Did the entry produce a generated record? -/
def isGeneratedOutcome : EntryOutcome → Bool
  | .generated _ => true
  | _ => false

/-- Did the entry produce an error record? -/
def isFailedOutcome : EntryOutcome → Bool
  | .failed _ => true
  | _ => false

/-- Was the entry skipped by the caller selection? -/
def isSkippedOutcome : EntryOutcome → Bool
  | .skipped => true
  | _ => false

theorem executeLoop_spec (selected : List Str)
    (getAsset : Str → Option TemplateAsset)
    (tryRender : TemplateAsset → PlanOutput → Except Str (Str × List Str)) :
    ∀ outputs : List PlanOutput,
      (executeLoop selected getAsset tryRender outputs).1 =
        outputs.filterMap
          (fun item => outcomeRecord (processOutput selected getAsset tryRender item))
      ∧ (executeLoop selected getAsset tryRender outputs).2.1 =
        (outputs.filter
          (fun item => isGeneratedOutcome
            (processOutput selected getAsset tryRender item))).length
      ∧ (executeLoop selected getAsset tryRender outputs).2.2.1 =
        (outputs.filter
          (fun item => isFailedOutcome
            (processOutput selected getAsset tryRender item))).length
      ∧ (executeLoop selected getAsset tryRender outputs).2.2.2 =
        (outputs.filter
          (fun item => isSkippedOutcome
            (processOutput selected getAsset tryRender item))).length := by
  intro outputs
  induction outputs with
  | nil => exact ⟨rfl, rfl, rfl, rfl⟩
  | cons item rest ih =>
    obtain ⟨ih1, ih2, ih3, ih4⟩ := ih
    cases hout : processOutput selected getAsset tryRender item with
    | skipped =>
      simp [executeLoop, hout, ih1, ih2, ih3, ih4, outcomeRecord,
        isGeneratedOutcome, isFailedOutcome, isSkippedOutcome]
    | failed r =>
      simp [executeLoop, hout, ih1, ih2, ih3, ih4, outcomeRecord,
        isGeneratedOutcome, isFailedOutcome, isSkippedOutcome]
    | generated r =>
      simp [executeLoop, hout, ih1, ih2, ih3, ih4, outcomeRecord,
        isGeneratedOutcome, isFailedOutcome, isSkippedOutcome]

theorem processOutput_failed_message (selected : List Str)
    (getAsset : Str → Option TemplateAsset)
    (tryRender : TemplateAsset → PlanOutput → Except Str (Str × List Str))
    (item : PlanOutput) (r : FileResult)
    (h : processOutput selected getAsset tryRender item = .failed r) :
    r.status = FileStatus.error ∧ r.error.isSome := by
  unfold processOutput at h
  split at h
  · cases h
  · split at h
    · injection h with h
      subst h
      exact ⟨rfl, rfl⟩
    · revert h
      split
      · intro h
        injection h with h
        subst h
        exact ⟨rfl, rfl⟩
      · split
        · intro h; cases h
        · intro h
          injection h with h
          subst h
          exact ⟨rfl, rfl⟩

/-- C7: after all plan entries are processed the run status is SUCCEEDED
exactly when no entry errored, FAILED exactly when at least one entry was
attempted and every attempted entry errored (failures with zero generated),
and PARTIAL otherwise; every entry contributes its record independently of
the other entries (the result list is the entry-wise map over the plan),
and a failed entry is recorded as an error result carrying a message. -/
theorem C7_run_status (selected : List Str)
    (getAsset : Str → Option TemplateAsset)
    (tryRender : TemplateAsset → PlanOutput → Except Str (Str × List Str))
    (outputs : List PlanOutput) :
    ((execute_generation selected getAsset tryRender outputs).files =
      outputs.filterMap
        (fun item => outcomeRecord (processOutput selected getAsset tryRender item)))
    ∧ ((execute_generation selected getAsset tryRender outputs).status =
          ("SUCCEEDED").data ↔
        (execute_generation selected getAsset tryRender outputs).failed = 0)
    ∧ ((execute_generation selected getAsset tryRender outputs).status =
          ("FAILED").data ↔
        ((execute_generation selected getAsset tryRender outputs).failed > 0
        ∧ (execute_generation selected getAsset tryRender outputs).generated = 0))
    ∧ ((execute_generation selected getAsset tryRender outputs).status =
          ("PARTIAL").data ↔
        ((execute_generation selected getAsset tryRender outputs).failed > 0
        ∧ (execute_generation selected getAsset tryRender outputs).generated > 0))
    ∧ (∀ item r, processOutput selected getAsset tryRender item = .failed r →
        r.status = FileStatus.error ∧ r.error.isSome) := by
  have hstatus : (execute_generation selected getAsset tryRender outputs).status =
      classifyStatus (execute_generation selected getAsset tryRender outputs).generated
        (execute_generation selected getAsset tryRender outputs).failed := rfl
  have hclass : ∀ g f : Nat,
      (classifyStatus g f = ("SUCCEEDED").data ↔ f = 0)
      ∧ (classifyStatus g f = ("FAILED").data ↔ (f > 0 ∧ g = 0))
      ∧ (classifyStatus g f = ("PARTIAL").data ↔ (f > 0 ∧ g > 0)) := by
    intro g f
    by_cases h1 : f > 0 ∧ g = 0
    · rw [classifyStatus, if_pos h1]
      refine ⟨⟨fun hh => absurd hh (by decide), fun hh => absurd h1.1 (by omega)⟩,
        ⟨fun _ => h1, fun _ => rfl⟩,
        ⟨fun hh => absurd hh (by decide), fun hh => absurd h1.2 (by omega)⟩⟩
    · rw [classifyStatus, if_neg h1]
      by_cases h2 : f > 0
      · have hg : g > 0 := by omega
        rw [if_pos h2]
        refine ⟨⟨fun hh => absurd hh (by decide), fun hh => absurd h2 (by omega)⟩,
          ⟨fun hh => absurd hh (by decide), fun hh => absurd hh.2 (by omega)⟩,
          ⟨fun _ => ⟨h2, hg⟩, fun _ => rfl⟩⟩
      · rw [if_neg h2]
        refine ⟨⟨fun _ => by omega, fun _ => rfl⟩,
          ⟨fun hh => absurd hh (by decide), fun hh => absurd hh.1 h2⟩,
          ⟨fun hh => absurd hh (by decide), fun hh => absurd hh.1 h2⟩⟩
  refine ⟨(executeLoop_spec selected getAsset tryRender outputs).1, ?_, ?_, ?_,
    fun item r h => processOutput_failed_message selected getAsset tryRender item r h⟩
  · rw [hstatus]
    exact (hclass _ _).1
  · rw [hstatus]
    exact (hclass _ _).2.1
  · rw [hstatus]
    exact (hclass _ _).2.2

/-- Witness for C7 at concrete inputs: one error among three entries gives
PARTIAL, all three erroring gives FAILED, none erroring gives SUCCEEDED,
and a failed entry's record carries an error message. -/
theorem C7_run_status_witness :
    (execute_generation []
        (fun id => if id = ("bad").data then none else some ⟨id, id⟩)
        (fun _ _ => .ok (("out").data, []))
        [⟨("t1").data, []⟩, ⟨("bad").data, []⟩, ⟨("t3").data, []⟩]).status =
      ("PARTIAL").data
    ∧ (execute_generation []
        (fun id => if id = ("bad").data then none else some ⟨id, id⟩)
        (fun _ _ => .ok (("out").data, []))
        [⟨("bad").data, []⟩, ⟨("bad").data, []⟩, ⟨("bad").data, []⟩]).status =
      ("FAILED").data
    ∧ (execute_generation []
        (fun id => if id = ("bad").data then none else some ⟨id, id⟩)
        (fun _ _ => .ok (("out").data, []))
        [⟨("t1").data, []⟩, ⟨("t2").data, []⟩, ⟨("t3").data, []⟩]).status =
      ("SUCCEEDED").data
    ∧ (⟨("bad").data, none, none, .error, some (("Template asset not found").data),
        []⟩ : FileResult).status = FileStatus.error :=
  ⟨by decide, by decide, by decide,
   ((C7_run_status []
      (fun id => if id = ("bad").data then none else some ⟨id, id⟩)
      (fun _ _ => .ok (("out").data, [])) []).2.2.2.2
      ⟨("bad").data, []⟩
      ⟨("bad").data, none, none, .error, some (("Template asset not found").data), []⟩
      (by decide)).1⟩

/-- C10: a plan entry excluded by the caller selection produces no per-file
result record, so the summary satisfies total = generated + failed, the
three counters partition the plan entries, skipping happens exactly for
the entries excluded by a non-empty selection, and the status is computed
from generated and failed alone. -/
theorem C10_skipped_entries (selected : List Str)
    (getAsset : Str → Option TemplateAsset)
    (tryRender : TemplateAsset → PlanOutput → Except Str (Str × List Str))
    (outputs : List PlanOutput) :
    ((execute_generation selected getAsset tryRender outputs).total =
      (execute_generation selected getAsset tryRender outputs).generated +
        (execute_generation selected getAsset tryRender outputs).failed)
    ∧ ((execute_generation selected getAsset tryRender outputs).generated +
        (execute_generation selected getAsset tryRender outputs).failed +
        (execute_generation selected getAsset tryRender outputs).skipped =
      outputs.length)
    ∧ (∀ item : PlanOutput,
        processOutput selected getAsset tryRender item = .skipped ↔
          (selected ≠ [] ∧ item.template_asset_id ∉ selected))
    ∧ ((execute_generation selected getAsset tryRender outputs).status =
        classifyStatus
          (execute_generation selected getAsset tryRender outputs).generated
          (execute_generation selected getAsset tryRender outputs).failed) := by
  have hcount : ∀ l : List PlanOutput,
      ((executeLoop selected getAsset tryRender l).1.length =
        (executeLoop selected getAsset tryRender l).2.1 +
          (executeLoop selected getAsset tryRender l).2.2.1)
      ∧ ((executeLoop selected getAsset tryRender l).2.1 +
          (executeLoop selected getAsset tryRender l).2.2.1 +
          (executeLoop selected getAsset tryRender l).2.2.2 = l.length) := by
    intro l
    induction l with
    | nil => exact ⟨rfl, rfl⟩
    | cons item rest ih =>
      obtain ⟨ih1, ih2⟩ := ih
      rcases hrest : executeLoop selected getAsset tryRender rest with ⟨rs, g, f, s⟩
      rw [hrest] at ih1 ih2
      simp only [List.length_cons] at ih1 ih2 ⊢
      cases hout : processOutput selected getAsset tryRender item with
      | skipped => simp [executeLoop, hrest, hout, List.length_cons]; omega
      | failed r => simp [executeLoop, hrest, hout, List.length_cons]; omega
      | generated r => simp [executeLoop, hrest, hout, List.length_cons]; omega
  refine ⟨(hcount outputs).1, (hcount outputs).2, ?_, rfl⟩
  intro item
  constructor
  · intro h
    by_cases hsel : selected ≠ [] ∧ item.template_asset_id ∉ selected
    · exact hsel
    · exfalso
      unfold processOutput at h
      rw [if_neg hsel] at h
      revert h
      split
      · intro h; cases h
      · split
        · intro h; cases h
        · split
          · intro h; cases h
          · intro h; cases h
  · intro hsel
    unfold processOutput
    rw [if_pos hsel]

/-! ## backend/indexing/services/ingestion.py, ingest_package_for_manual

The part of the run after the copy phase: the per-asset indexing loop with
its catch-and-count error isolation, the zero-chunks check, the batch
embedding and the full-text-search update.  index_existing_asset (text
extraction, placeholder snapshot, chunk persistence) is an oracle from the
asset to its chunk rows and placeholder counts or an exception; embed_texts
is an oracle failing atomically for the whole batch.  The enclosing
transaction.atomic means an error return leaves no committed state. -/

/-- The chunk row fields this stage reads. -/
structure ChunkRow where
  id : Str
  text : Str
deriving DecidableEq

/-- IngestionStats. -/
structure IngestionStats where
  assets_total : Nat
  assets_created : Nat
  assets_skipped : Nat
  chunks_total : Nat
  placeholders_total : Nat
  extraction_errors : Nat
  unknown_placeholders : Nat
deriving DecidableEq

/-- The per-asset indexing loop: a successful index_existing_asset call
extends the processed chunks and the counters, a failure is counted as an
extraction error and the loop continues with the remaining assets. -/
def ingestLoop (indexAsset : Str → Except Str (List ChunkRow × Nat × Nat)) :
    List Str → IngestionStats × List ChunkRow →
      IngestionStats × List ChunkRow
  | [], acc => acc
  | asset :: rest, (stats, processed) =>
    match indexAsset asset with
    | .ok (rows, placeholders, unknown) =>
      ingestLoop indexAsset rest
        ({ stats with
            chunks_total := stats.chunks_total + rows.length,
            placeholders_total := stats.placeholders_total + placeholders,
            unknown_placeholders := stats.unknown_placeholders + unknown },
          processed ++ rows)
    | .error _ =>
      ingestLoop indexAsset rest
        ({ stats with extraction_errors := stats.extraction_errors + 1 }, processed)

/-- _apply_embeddings: nothing to do for no chunks; otherwise one batch
embed_texts call whose vectors are assigned pairwise to the rows and
written in one bulk update; a batch failure assigns nothing. -/
def _apply_embeddings (embed : List Str → Except Str (List (List ℚ)))
    (chunks : List ChunkRow) : Except Str (List (ChunkRow × List ℚ)) :=
  if chunks = [] then .ok []
  else
    match embed (chunks.map (fun c => c.text)) with
    | .ok vectors => .ok (chunks.zip vectors)
    | .error e => .error e

/-- ingest_package_for_manual after the copy phase: index every asset with
per-asset error isolation, abort when the whole set produced zero chunks,
abort when the batch embedding call fails, otherwise succeed with the
final stats and the embedded chunk rows. -/
def ingest_package_for_manual (assets : List Str)
    (indexAsset : Str → Except Str (List ChunkRow × Nat × Nat))
    (embed : List Str → Except Str (List (List ℚ)))
    (copyStats : IngestionStats) :
    Except Str (IngestionStats × List (ChunkRow × List ℚ)) :=
  let stats0 : IngestionStats :=
    { assets_total := copyStats.assets_total,
      assets_created := copyStats.assets_created,
      assets_skipped := copyStats.assets_skipped,
      chunks_total := 0, placeholders_total := 0, extraction_errors := 0,
      unknown_placeholders := 0 }
  let result := ingestLoop indexAsset assets (stats0, [])
  if result.1.chunks_total = 0 then
    .error (("Ingestion failed: zero chunks produced").data)
  else
    match _apply_embeddings embed result.2 with
    | .ok embedded => .ok (result.1, embedded)
    | .error e => .error ((("Embedding API unavailable: ").data) ++ e)

theorem ingestLoop_spec (indexAsset : Str → Except Str (List ChunkRow × Nat × Nat)) :
    ∀ (assets : List Str) (stats : IngestionStats) (processed : List ChunkRow),
      ((ingestLoop indexAsset assets (stats, processed)).1.extraction_errors =
        stats.extraction_errors +
          (assets.filter (fun a => ¬(indexAsset a).isOk)).length)
      ∧ ((ingestLoop indexAsset assets (stats, processed)).2 =
        processed ++
          (assets.filterMap
            (fun a => ((indexAsset a).toOption).map (fun r => r.1))).flatten)
      ∧ ((ingestLoop indexAsset assets (stats, processed)).1.chunks_total =
        stats.chunks_total +
          ((assets.filterMap
            (fun a => ((indexAsset a).toOption).map (fun r => r.1))).flatten).length) := by
  intro assets
  induction assets with
  | nil => intro stats processed; simp [ingestLoop]
  | cons asset rest ih =>
    intro stats processed
    cases hidx : indexAsset asset with
    | ok r =>
      obtain ⟨rows, placeholders, unknown⟩ := r
      obtain ⟨ih1, ih2, ih3⟩ := ih
        { stats with
            chunks_total := stats.chunks_total + rows.length,
            placeholders_total := stats.placeholders_total + placeholders,
            unknown_placeholders := stats.unknown_placeholders + unknown }
        (processed ++ rows)
      refine ⟨?_, ?_, ?_⟩
      · rw [ingestLoop]
        simp only [hidx]
        rw [ih1]
        simp [List.filter_cons, hidx, Except.isOk, Except.toBool]
      · rw [ingestLoop]
        simp only [hidx]
        rw [ih2]
        simp [List.filterMap_cons, hidx, Except.toOption, List.append_assoc]
      · rw [ingestLoop]
        simp only [hidx]
        rw [ih3]
        simp [List.filterMap_cons, hidx, Except.toOption, List.length_append]
        omega
    | error e =>
      obtain ⟨ih1, ih2, ih3⟩ := ih
        { stats with extraction_errors := stats.extraction_errors + 1 } processed
      refine ⟨?_, ?_, ?_⟩
      · rw [ingestLoop]
        simp only [hidx]
        rw [ih1]
        simp [List.filter_cons, hidx, Except.isOk, Except.toBool]
        omega
      · rw [ingestLoop]
        simp only [hidx]
        rw [ih2]
        simp [List.filterMap_cons, hidx, Except.toOption]
      · rw [ingestLoop]
        simp only [hidx]
        rw [ih3]
        simp [List.filterMap_cons, hidx, Except.toOption]

/-- C9: a per-document extraction failure is counted and the loop
continues (the error counter adds exactly the failing assets and the
processed chunks are exactly the successful assets' chunks, in order);
zero chunks across the whole set aborts the run with an error; a batch
embedding failure aborts the run with an error; and a successful run
carries every processed chunk paired with a vector of the one successful
batch, so no chunk ever carries a partial embedding from a failed batch. -/
theorem C9_ingestion_error_policy (assets : List Str)
    (indexAsset : Str → Except Str (List ChunkRow × Nat × Nat))
    (embed : List Str → Except Str (List (List ℚ)))
    (copyStats : IngestionStats) :
    (∀ out, ingest_package_for_manual assets indexAsset embed copyStats = .ok out →
      (out.1.extraction_errors =
          (assets.filter (fun a => ¬(indexAsset a).isOk)).length
      ∧ out.2 = ((assets.filterMap
          (fun a => ((indexAsset a).toOption).map (fun r => r.1))).flatten).zip
          ((embed (((assets.filterMap
            (fun a => ((indexAsset a).toOption).map (fun r => r.1))).flatten).map
              (fun c => c.text))).toOption.getD [])))
    ∧ (((assets.filterMap
          (fun a => ((indexAsset a).toOption).map (fun r => r.1))).flatten) = [] →
        ingest_package_for_manual assets indexAsset embed copyStats =
          .error (("Ingestion failed: zero chunks produced").data))
    ∧ (∀ e, ((assets.filterMap
          (fun a => ((indexAsset a).toOption).map (fun r => r.1))).flatten) ≠ [] →
        embed (((assets.filterMap
          (fun a => ((indexAsset a).toOption).map (fun r => r.1))).flatten).map
            (fun c => c.text)) = .error e →
        ingest_package_for_manual assets indexAsset embed copyStats =
          .error ((("Embedding API unavailable: ").data) ++ e)) := by
  obtain ⟨hl1, hl2, hl3⟩ := ingestLoop_spec indexAsset assets
    { assets_total := copyStats.assets_total,
      assets_created := copyStats.assets_created,
      assets_skipped := copyStats.assets_skipped,
      chunks_total := 0, placeholders_total := 0, extraction_errors := 0,
      unknown_placeholders := 0 } []
  refine ⟨?_, ?_, ?_⟩
  · intro out hok
    rw [ingest_package_for_manual] at hok
    simp only at hok
    split at hok
    · cases hok
    · rename_i hnz
      split at hok
      · rename_i embedded hemb
        injection hok with hok
        subst hok
        simp only [List.nil_append] at hl2
        rw [_apply_embeddings] at hemb
        split at hemb
        · rename_i hz
          injection hemb with hemb
          subst hemb
          refine ⟨by rw [hl1]; simp, ?_⟩
          rw [hz] at hl2
          rw [← hl2]
          simp
        · split at hemb
          · rename_i vectors hvec
            injection hemb with hemb
            subst hemb
            refine ⟨by rw [hl1]; simp, ?_⟩
            rw [hl2] at hvec ⊢
            rw [hvec]
            rfl
          · cases hemb
      · cases hok
  · intro hzero
    simp only [List.nil_append] at hl2
    rw [ingest_package_for_manual]
    simp only
    have hct : (ingestLoop indexAsset assets
        ({ assets_total := copyStats.assets_total,
           assets_created := copyStats.assets_created,
           assets_skipped := copyStats.assets_skipped, chunks_total := 0,
           placeholders_total := 0, extraction_errors := 0,
           unknown_placeholders := 0 }, [])).1.chunks_total = 0 := by
      rw [hl3, hzero]
      rfl
    rw [if_pos hct]
  · intro e hnz hemb
    simp only [List.nil_append] at hl2
    rw [ingest_package_for_manual]
    simp only
    have hnzct : ¬ ((ingestLoop indexAsset assets
        ({ assets_total := copyStats.assets_total,
           assets_created := copyStats.assets_created,
           assets_skipped := copyStats.assets_skipped, chunks_total := 0,
           placeholders_total := 0, extraction_errors := 0,
           unknown_placeholders := 0 }, [])).1.chunks_total = 0) := by
      rw [hl3]
      intro h0
      refine hnz (List.eq_nil_of_length_eq_zero ?_)
      simpa using h0
    rw [if_neg hnzct]
    rw [_apply_embeddings, if_neg (by rw [hl2]; exact hnz)]
    rw [hl2, hemb]

/-- Witness for C9 at concrete inputs: a set whose only asset fails
extraction aborts with the zero-chunks error; a set with one chunk whose
batch embedding call fails aborts with the embedding error; and a
successful one-asset run reports zero extraction errors. -/
theorem C9_ingestion_error_policy_witness :
    ingest_package_for_manual [("a").data]
        (fun _ => .error (("no text").data))
        (fun texts => .ok (texts.map (fun _ => [(1 : ℚ)])))
        ⟨1, 1, 0, 0, 0, 0, 0⟩ =
      .error (("Ingestion failed: zero chunks produced").data)
    ∧ ingest_package_for_manual [("a").data]
        (fun _ => .ok ([⟨("c").data, ("t").data⟩], 0, 0))
        (fun _ => .error (("down").data))
        ⟨1, 1, 0, 0, 0, 0, 0⟩ =
      .error ((("Embedding API unavailable: ").data) ++ ("down").data)
    ∧ ((⟨1, 1, 0, 1, 0, 0, 0⟩ : IngestionStats),
        ([(⟨("c").data, ("t").data⟩, [(1 : ℚ)])] :
          List (ChunkRow × List ℚ))).1.extraction_errors = 0 := by
  refine ⟨?_, ?_, ?_⟩
  · exact (C9_ingestion_error_policy [("a").data]
      (fun _ => .error (("no text").data))
      (fun texts => .ok (texts.map (fun _ => [(1 : ℚ)])))
      ⟨1, 1, 0, 0, 0, 0, 0⟩).2.1 (by decide)
  · exact (C9_ingestion_error_policy [("a").data]
      (fun _ => .ok ([⟨("c").data, ("t").data⟩], 0, 0))
      (fun _ => .error (("down").data))
      ⟨1, 1, 0, 0, 0, 0, 0⟩).2.2 (("down").data) (by decide) rfl
  · have h := (C9_ingestion_error_policy [("a").data]
      (fun _ => .ok ([⟨("c").data, ("t").data⟩], 0, 0))
      (fun texts => .ok (texts.map (fun _ => [(1 : ℚ)])))
      ⟨1, 1, 0, 0, 0, 0, 0⟩).1
      ((⟨1, 1, 0, 1, 0, 0, 0⟩ : IngestionStats),
        ([(⟨("c").data, ("t").data⟩, [(1 : ℚ)])] :
          List (ChunkRow × List ℚ))) rfl
    rw [h.1]
    decide

end QM
